import Mathlib

/-!
Shallow embedding of `src/parser/java_parser.py`, a tree-walking interpreter
for a Java-like language (lexer, recursive-descent parser, evaluator).
The data model and the evaluator are translated from the Python source:
Python exceptions (the interpreter's `BreakException`, `ContinueException`,
`ReturnException`, and runtime errors) become an explicit `Signal` channel,
mutable state (the environment stack, the current receiver, heap objects and
arrays, and printed output) becomes an explicit `St` record threaded through
evaluation, and recursion is made total with a fuel parameter: loop
iterations and method/constructor body executions consume fuel, structural
descent into subterms does not.

Modeling notes (documented deviations, none load-bearing for the theorems):
floating point values and operations are outside the model (the claims do
not involve them); Python renders a list's contents in `str`, the model
renders arrays with an opaque reference notation, as objects; error message
texts drop the quote characters around names; Python compares lists
elementwise while the model compares arrays by reference identity.
-/

namespace Jv

-- ===========================
-- AST (from the dataclasses in the source)
-- ===========================

inductive Expr where
  | IntLit (value : Int)
  | StringLit (value : String)
  | BoolLit (value : Bool)
  | CharLit (value : String)
  | NullLit
  | Variable (name : String)
  | BinOp (op : String) (left right : Expr)
  | UnaryOp (op : String) (operand : Expr)
  | TernaryOp (condition true_expr false_expr : Expr)
  | ArrayAccess (array index : Expr)
  | FieldAccess (obj : Expr) (field : String)
  | MethodCall (obj : Option Expr) (method : String) (args : List Expr)
  | NewObject (class_name : String) (args : List Expr)
  | NewArray (element_type : String) (sizes : List Expr)
  | ArrayInit (elements : List Expr)
  | Cast (target_type : String) (expr : Expr)
deriving Repr

inductive Stmt where
  | VarDecl (var_type name : String) (value : Option Expr)
  | Assign (target : String) (value : Expr)
  | ArrayAssign (array : String) (index value : Expr)
  | FieldAssign (obj : Expr) (field : String) (value : Expr)
  | If (condition : Expr) (then_block else_block : List Stmt)
  | While (condition : Expr) (body : List Stmt)
  | DoWhile (body : List Stmt) (condition : Expr)
  | For (init : Option Stmt) (condition : Option Expr) (update : Option Stmt)
      (body : List Stmt)
  | ForEach (var_type var : String) (iterable : Expr) (body : List Stmt)
  | Switch (expr : Expr) (cases : List (Expr × List Stmt))
      (dflt : Option (List Stmt))
  | Break
  | Continue
  | Return (expr : Option Expr)
  | ExprStmt (expr : Expr)
  | Try (try_block : List Stmt)
      (catch_blocks : List (String × String × List Stmt))
      (finally_block : Option (List Stmt))
deriving Repr

structure MethodDecl where
  modifiers : List String
  return_type : String
  name : String
  params : List (String × String)
  body : List Stmt
deriving Repr

structure FieldDecl where
  modifiers : List String
  field_type : String
  name : String
  value : Option Expr
deriving Repr

structure Constructor where
  modifiers : List String
  name : String
  params : List (String × String)
  body : List Stmt
deriving Repr

structure ClassDecl where
  modifiers : List String
  name : String
  fields : List FieldDecl
  constructors : List Constructor
  methods : List MethodDecl
deriving Repr

-- ===========================
-- Runtime values and state
-- ===========================

/-- Runtime values (source: Python values used by `Evaluator`).  Character
literals are Python one-character strings in the source, so `CharLit`
evaluates to `VStr`; arrays and `JavaObject` instances live on a heap and
are passed by reference (a heap index), matching Python object identity. -/
inductive Value where
  | VInt (n : Int)
  | VBool (b : Bool)
  | VStr (s : String)
  | VNull
  | VArr (addr : Nat)
  | VObj (addr : Nat)
deriving Repr, DecidableEq

/-- Heap entries: `JavaObject` instances (class name and mutable field map)
and Python lists backing arrays. -/
inductive HeapObj where
  | JavaObject (class_name : String) (fields : List (String × Value))
  | JavaArray (elems : List Value)
deriving Repr, DecidableEq

/-- The Python exceptions that can unwind evaluation.  All of them are
subclasses of `Exception` in the source, so a bare `except Exception`
catches every one of them.  The various runtime error classes
(`RuntimeError`, `NameError`, `IndexError`, `TypeError`, ...) are collapsed
into `PyError` with their message. -/
inductive Signal where
  | BreakException
  | ContinueException
  | ReturnException (value : Value)
  | PyError (msg : String)
deriving Repr, DecidableEq

/-- The evaluator's mutable state: the environment stack (head = top frame;
the last element is the global frame), `current_object` (receiver, a heap
address or none), the heap, and the chunks printed to standard output. -/
structure St where
  envs : List (List (String × Value))
  current_object : Option Nat
  heap : List HeapObj
  out : List String
deriving Repr, DecidableEq

/-- Result of evaluating a piece of syntax: normal completion with a value,
a propagating Python exception, or fuel exhaustion of the model.  In both
of the first two cases the state reached so far is retained, because Python
mutations persist when an exception propagates. -/
inductive Outcome (α : Type) where
  | ok (val : α) (st : St)
  | exn (e : Signal) (st : St)
  | fuel
deriving Repr, DecidableEq

/-- Class registry and static-method table, populated by `eval_program`
before execution and read-only afterwards. -/
structure Prog where
  classes : List ClassDecl
  methods : List (String × MethodDecl)

-- ===========================
-- Pure helpers of the evaluator
-- ===========================

/-- Python `str(e)` for the exception values the interpreter can raise.
`BreakException`/`ContinueException` carry no arguments and
`ReturnException.__init__` does not call `super().__init__`, so `str`
of each of them is the empty string; for error classes it is the message. -/
def sig_to_string : Signal → String
  | .BreakException => ""
  | .ContinueException => ""
  | .ReturnException _ => ""
  | .PyError m => m

/-- Python `str(value)` on the model's values: ints in decimal, `True` /
`False` for booleans, `None` for null, strings unchanged.  Heap references
are rendered with an opaque reference notation. -/
def py_str : Value → String
  | .VInt n => toString n
  | .VBool b => if b then "True" else "False"
  | .VStr s => s
  | .VNull => "None"
  | .VObj a => "<JavaObject instance at " ++ toString a ++ ">"
  | .VArr a => "<JavaArray instance at " ++ toString a ++ ">"

/-- Numeric view of a value: Python `bool` is a subclass of `int`, so `True`
counts as 1 and `False` as 0 in arithmetic. -/
def to_num : Value → Option Int
  | .VInt n => some n
  | .VBool b => some (if b then 1 else 0)
  | _ => none

/-- Look up an array's element list in the heap. -/
def heap_elems (st : St) (a : Nat) : List Value :=
  match st.heap.get? a with
  | some (.JavaArray es) => es
  | _ => []

/-- Python truthiness, as used by `if`, `while`, `not`, `and`, `or`:
`False`, `0`, `""`, `None` and the empty list are falsy. -/
def truthy (st : St) : Value → Bool
  | .VInt n => n != 0
  | .VBool b => b
  | .VStr s => s ≠ ""
  | .VNull => false
  | .VArr a => !(heap_elems st a).isEmpty
  | .VObj _ => true

/-- Python `==` on the model's values: numeric cross-comparison between
ints and booleans (`True == 1`), string equality, `None == None`, and
reference identity for objects (and, in this model, arrays); `==` across
unrelated types is `False`. -/
def py_eq (l r : Value) : Bool :=
  match to_num l, to_num r with
  | some a, some b => a == b
  | _, _ =>
    match l, r with
    | .VStr s1, .VStr s2 => s1 == s2
    | .VNull, .VNull => true
    | .VObj a, .VObj b => a == b
    | .VArr a, .VArr b => a == b
    | _, _ => false

/-- Lexicographic `<` on char lists (Python string comparison). -/
def chars_lt : List Char → List Char → Bool
  | [], [] => false
  | [], _ :: _ => true
  | _ :: _, [] => false
  | c :: cs, d :: ds => if c = d then chars_lt cs ds else decide (c < d)

def py_str_lt (s t : String) : Bool := chars_lt s.data t.data

/-- Substring test, Python `needle in hay` on strings (used for the `'int'
in type_str` checks of `Cast` and `get_default_value`). -/
def str_contains (hay needle : String) : Bool :=
  go hay.data
where
  go : List Char → Bool
    | [] => needle.data.isPrefixOf []
    | l@(_ :: t) => needle.data.isPrefixOf l || go t

/-- Update the value of an existing key in a frame / field map. -/
def frame_set : List (String × Value) → String → Value → List (String × Value)
  | [], _, _ => []
  | (k, w) :: rest, n, v =>
    if k == n then (k, v) :: rest else (k, w) :: frame_set rest n v

/-- Python dict assignment: replace the key if present, else append. -/
def fields_put (flds : List (String × Value)) (n : String) (v : Value) :
    List (String × Value) :=
  if flds.any (fun p => p.1 == n) then frame_set flds n v else flds ++ [(n, v)]

/-- Search the environment stack from the top frame down. -/
def lookup_frames : List (List (String × Value)) → String → Option Value
  | [], _ => none
  | fr :: rest, n =>
    match fr.find? (fun p => p.1 == n) with
    | some p => some p.2
    | none => lookup_frames rest n

/-- `Evaluator.get_var`: frames from top to bottom, then the current
receiver's fields, else a `NameError`. -/
def get_var (st : St) (n : String) : Except Signal Value :=
  match lookup_frames st.envs n with
  | some v => .ok v
  | none =>
    match st.current_object with
    | some a =>
      match st.heap.get? a with
      | some (.JavaObject _ flds) =>
        match flds.find? (fun p => p.1 == n) with
        | some p => .ok p.2
        | none => .error (.PyError ("Variable " ++ n ++ " is not defined"))
      | _ => .error (.PyError ("Variable " ++ n ++ " is not defined"))
    | none => .error (.PyError ("Variable " ++ n ++ " is not defined"))

/-- Write into the nearest frame already binding the name, if any. -/
def frames_set : List (List (String × Value)) → String → Value →
    Option (List (List (String × Value)))
  | [], _, _ => none
  | fr :: rest, n, v =>
    if fr.any (fun p => p.1 == n) then some (frame_set fr n v :: rest)
    else
      match frames_set rest n v with
      | some rest' => some (fr :: rest')
      | none => none

/-- Create a new binding in the top frame (Python dict insertion). -/
def insert_top (st : St) (n : String) (v : Value) : St :=
  match st.envs with
  | [] => { st with envs := [[(n, v)]] }
  | fr :: rest => { st with envs := (fr ++ [(n, v)]) :: rest }

/-- `Evaluator.set_var`: nearest frame that already binds the name; else the
current receiver's field of that name; else a fresh binding in the top
frame. -/
def set_var (st : St) (n : String) (v : Value) : St :=
  match frames_set st.envs n v with
  | some envs' => { st with envs := envs' }
  | none =>
    match st.current_object with
    | some a =>
      match st.heap.get? a with
      | some (.JavaObject cn flds) =>
        if flds.any (fun p => p.1 == n) then
          { st with heap := st.heap.set a (.JavaObject cn (frame_set flds n v)) }
        else insert_top st n v
      | _ => insert_top st n v
    | none => insert_top st n v

/-- `Evaluator.push_env`. -/
def push_env (st : St) : St := { st with envs := [] :: st.envs }

/-- `Evaluator.pop_env`: pops only while more than the global frame exists. -/
def pop_env (st : St) : St :=
  match st.envs with
  | [] => st
  | [g] => { st with envs := [g] }
  | _ :: rest => { st with envs := rest }

/-- `Evaluator.get_default_value` (substring checks on the type name, in the
source's order; the float/double default 0.0 is outside the integer-fragment
model and is rendered as null). -/
def get_default_value (st : St) (ty : String) : Value × St :=
  if str_contains ty "int" then (.VInt 0, st)
  else if str_contains ty "float" || str_contains ty "double" then (.VNull, st)
  else if str_contains ty "boolean" then (.VBool false, st)
  else if str_contains ty "String" then (.VStr "", st)
  else if str_contains ty "[]" then
    (.VArr st.heap.length, { st with heap := st.heap ++ [.JavaArray []] })
  else (.VNull, st)

/-- First constructor whose parameter arity equals the argument count
(the source's linear scan with `break`). -/
def find_ctor (ctors : List Constructor) (n : Nat) : Option Constructor :=
  ctors.find? (fun k => k.params.length == n)

-- ===========================
-- Binary / unary operator semantics (the `ops` table of `eval_expr`)
-- ===========================

/-- The non-short-circuit binary operators.  `+` concatenates whenever either
operand is a string (Python `str(left) + str(right)`), otherwise Python
addition; `/` raises `Division by zero` when the right operand equals 0 and
otherwise divides (the model stays in the integer fragment); `%` is Python's
floor-sign modulo; comparisons follow Python's numeric/string rules.
An operator not in the source's table falls through to `return None`. -/
def apply_binop (op : String) (l r : Value) (st : St) : Outcome Value :=
  if op == "+" then
    match l, r with
    | .VStr _, _ | _, .VStr _ => .ok (.VStr (py_str l ++ py_str r)) st
    | _, _ =>
      match to_num l, to_num r with
      | some a, some b => .ok (.VInt (a + b)) st
      | _, _ =>
        match l, r with
        | .VArr a, .VArr b =>
          .ok (.VArr st.heap.length)
            { st with heap := st.heap ++ [.JavaArray (heap_elems st a ++ heap_elems st b)] }
        | _, _ => .exn (.PyError "unsupported operand type(s) for +") st
  else if op == "-" then
    match to_num l, to_num r with
    | some a, some b => .ok (.VInt (a - b)) st
    | _, _ => .exn (.PyError "unsupported operand type(s) for -") st
  else if op == "*" then
    match to_num l, to_num r with
    | some a, some b => .ok (.VInt (a * b)) st
    | _, _ =>
      match l, r with
      | .VStr s, _ =>
        match to_num r with
        | some n => .ok (.VStr (String.join (List.replicate n.toNat s))) st
        | none => .exn (.PyError "unsupported operand type(s) for *") st
      | _, .VStr s =>
        match to_num l with
        | some n => .ok (.VStr (String.join (List.replicate n.toNat s))) st
        | none => .exn (.PyError "unsupported operand type(s) for *") st
      | _, _ => .exn (.PyError "unsupported operand type(s) for *") st
  else if op == "/" then
    match to_num r with
    | some 0 => .exn (.PyError "Division by zero") st
    | _ =>
      match to_num l, to_num r with
      | some a, some b => .ok (.VInt (a / b)) st
      | _, _ => .exn (.PyError "unsupported operand type(s) for /") st
  else if op == "%" then
    match to_num r with
    | some 0 => .exn (.PyError "integer division or modulo by zero") st
    | _ =>
      match to_num l, to_num r with
      | some a, some b => .ok (.VInt (Int.fmod a b)) st
      | _, _ => .exn (.PyError "unsupported operand type(s) for %") st
  else if op == "==" then .ok (.VBool (py_eq l r)) st
  else if op == "!=" then .ok (.VBool (!py_eq l r)) st
  else if op == "<" || op == "<=" || op == ">" || op == ">=" then
    match to_num l, to_num r with
    | some a, some b =>
      .ok (.VBool (if op == "<" then a < b else if op == "<=" then a ≤ b
                   else if op == ">" then b < a else b ≤ a)) st
    | _, _ =>
      match l, r with
      | .VStr s1, .VStr s2 =>
        .ok (.VBool (if op == "<" then py_str_lt s1 s2
                     else if op == "<=" then !py_str_lt s2 s1
                     else if op == ">" then py_str_lt s2 s1
                     else !py_str_lt s1 s2)) st
      | _, _ => .exn (.PyError "comparison not supported between operands") st
  else .ok .VNull st

/-- Indexing `array[index]` / `string[index]` with Python's negative-index
rule and `IndexError` when out of range. -/
def py_index (st : St) (av iv : Value) : Outcome Value :=
  match av with
  | .VArr a =>
    let es := heap_elems st a
    match to_num iv with
    | some i =>
      let j : Int := if i < 0 then i + es.length else i
      if 0 ≤ j ∧ j < es.length then .ok (es.getD j.toNat .VNull) st
      else .exn (.PyError "list index out of range") st
    | none => .exn (.PyError "list indices must be integers") st
  | .VStr s =>
    match to_num iv with
    | some i =>
      let j : Int := if i < 0 then i + s.length else i
      if 0 ≤ j ∧ j < s.length then
        .ok (.VStr (String.singleton (s.data.getD j.toNat ' '))) st
      else .exn (.PyError "string index out of range") st
    | none => .exn (.PyError "string indices must be integers") st
  | _ => .exn (.PyError "object is not subscriptable") st

/-- Python slice `s[a:b]` with clamping and negative indices. -/
def py_slice (s : String) (a : Int) (b : Option Int) : String :=
  let n : Int := s.length
  let norm : Int → Int := fun i => if i < 0 then max 0 (n + i) else min i n
  let start := (norm a).toNat
  let stop := (match b with | none => s.length | some bb => (norm bb).toNat)
  String.mk ((s.data.drop start).take (stop - start))

/-- Python `str.find` (`indexOf` builtin): first index of the substring or
-1. -/
def str_find (s t : String) : Int :=
  go s.data 0
where
  go : List Char → Int → Int
    | l, i =>
      if t.data.isPrefixOf l then i
      else match l with
        | [] => -1
        | _ :: rest => go rest (i + 1)

def is_math_func (m : String) : Bool :=
  m == "abs" || m == "sqrt" || m == "pow" || m == "sin" || m == "cos" ||
  m == "tan" || m == "floor" || m == "ceil" || m == "max" || m == "min"

/-- The `Math.*` builtins on the integer fragment; the float-valued ones are
outside the model. -/
def apply_math (m : String) (args : List Value) (st : St) : Outcome Value :=
  match m, args with
  | "abs", [v] =>
    match to_num v with
    | some n => .ok (.VInt n.natAbs) st
    | none => .exn (.PyError "bad operand type for abs") st
  | "max", [a, b] =>
    match to_num a, to_num b with
    | some x, some y => .ok (.VInt (max x y)) st
    | _, _ => .exn (.PyError "bad operand type for max") st
  | "min", [a, b] =>
    match to_num a, to_num b with
    | some x, some y => .ok (.VInt (min x y)) st
    | _, _ => .exn (.PyError "bad operand type for min") st
  | "floor", [v] =>
    match to_num v with
    | some n => .ok (.VInt n) st
    | none => .exn (.PyError "must be a real number") st
  | "ceil", [v] =>
    match to_num v with
    | some n => .ok (.VInt n) st
    | none => .exn (.PyError "must be a real number") st
  | "pow", [a, b] =>
    match to_num a, to_num b with
    | some x, some y =>
      if 0 ≤ y then .ok (.VInt (x ^ y.toNat)) st
      else .exn (.PyError "float result unsupported in model") st
    | _, _ => .exn (.PyError "bad operand type for pow") st
  | _, _ => .exn (.PyError "float result unsupported in model") st

def is_string_method (m : String) : Bool :=
  m == "length" || m == "substring" || m == "toUpperCase" ||
  m == "toLowerCase" || m == "charAt" || m == "indexOf" || m == "replace"

/-- The string builtins table of `eval_expr` (called with the evaluated
receiver string); a call shape not matching the lambda's signature is a
Python `TypeError`.  `substring(start, 0)` hits the source's falsy-end
quirk and slices to the end of the string. -/
def apply_string_method (s : String) (m : String) (args : List Value)
    (st : St) : Outcome Value :=
  match m, args with
  | "length", [] => .ok (.VInt s.length) st
  | "substring", [a] =>
    match to_num a with
    | some i => .ok (.VStr (py_slice s i none)) st
    | none => .exn (.PyError "slice indices must be integers") st
  | "substring", [a, b] =>
    match to_num a, to_num b with
    | some i, some j =>
      if j == 0 then .ok (.VStr (py_slice s i none)) st
      else .ok (.VStr (py_slice s i (some j))) st
    | _, _ => .exn (.PyError "slice indices must be integers") st
  | "toUpperCase", [] => .ok (.VStr s.toUpper) st
  | "toLowerCase", [] => .ok (.VStr s.toLower) st
  | "charAt", [i] => py_index st (.VStr s) i
  | "indexOf", [.VStr t] => .ok (.VInt (str_find s t)) st
  | "replace", [.VStr a, .VStr b] => .ok (.VStr (s.replace a b)) st
  | _, _ => .exn (.PyError "TypeError in string method call") st

/-- `array[index] = value` (the `ArrayAssign` statement): Python list item
assignment with negative indices and `IndexError`; assigning into anything
that is not a list is a `TypeError`. -/
def py_index_set (st : St) (av iv vv : Value) : Outcome Unit :=
  match av with
  | .VArr a =>
    let es := heap_elems st a
    match to_num iv with
    | some i =>
      let j : Int := if i < 0 then i + es.length else i
      if 0 ≤ j ∧ j < es.length then
        .ok () { st with heap := st.heap.set a (.JavaArray (es.set j.toNat vv)) }
      else .exn (.PyError "list assignment index out of range") st
    | none => .exn (.PyError "list indices must be integers") st
  | _ => .exn (.PyError "object does not support item assignment") st

/-- Bind already-evaluated arguments to parameter names via `set_var`
(`zip` stops at the shorter list, as in the source). -/
def bind_params (st : St) : List (String × String) → List Value → St
  | (_, pn) :: ps, a :: rest => bind_params (set_var st pn a) ps rest
  | _, _ => st

/-- The syntactic `Math` receiver test of `MethodCall` (the source checks
`isinstance(expr.obj, Variable) and expr.obj.name == 'Math'` without
evaluating the receiver). -/
def is_math_receiver : Option Expr → Bool
  | some (.Variable nm) => nm == "Math"
  | _ => false

/-- The `isinstance(var, Variable)` test of the increment operators. -/
def as_var_name : Expr → Option String
  | .Variable nm => some nm
  | _ => none

/-- Heap lookup expecting a `JavaObject`. -/
def heap_object (st : St) (a : Nat) :
    Option (String × List (String × Value)) :=
  match st.heap.get? a with
  | some (.JavaObject cn flds) => some (cn, flds)
  | _ => none

-- ===========================
-- The evaluator (`Evaluator.eval_expr` / `Evaluator.eval_stmt`)
-- ===========================

mutual

/-- `Evaluator.eval_expr`, translated branch by branch from the source.
Fuel is consumed only when entering a constructor or method body (and by
loop iterations in `eval_stmt`); structural descent into subterms keeps the
same fuel. -/
def eval_expr (Γ : Prog) : Nat → Expr → St → Outcome Value
  | 0, _, _ => .fuel
  | f + 1, e, st =>
  match e with

  | .IntLit n => .ok (.VInt n) st
  | .StringLit s => .ok (.VStr s) st
  | .BoolLit b => .ok (.VBool b) st
  | .CharLit c => .ok (.VStr c) st
  | .NullLit => .ok .VNull st
  | .Variable n =>
    if n == "this" then
      match st.current_object with
      | some a => .ok (.VObj a) st
      | none => .ok .VNull st
    else
      match get_var st n with
      | .ok v => .ok v st
      | .error s1 => .exn s1 st
  | .BinOp op l r =>
    match eval_expr Γ f l st with
    | .fuel => .fuel
    | .exn s1 st1 => .exn s1 st1
    | .ok lv st1 =>
      if op == "&&" then
        if truthy st1 lv then eval_expr Γ f r st1 else .ok lv st1
      else if op == "||" then
        if truthy st1 lv then .ok lv st1 else eval_expr Γ f r st1
      else
        match eval_expr Γ f r st1 with
        | .fuel => .fuel
        | .exn s1 st2 => .exn s1 st2
        | .ok rv st2 => apply_binop op lv rv st2
  | .UnaryOp op e1 =>
    if op == "!" then
      match eval_expr Γ f e1 st with
      | .ok v st1 => .ok (.VBool (!truthy st1 v)) st1
      | .exn s1 st1 => .exn s1 st1
      | .fuel => .fuel
    else if op == "-" then
      match eval_expr Γ f e1 st with
      | .ok v st1 =>
        match to_num v with
        | some n => .ok (.VInt (-n)) st1
        | none => .exn (.PyError "bad operand type for unary -") st1
      | .exn s1 st1 => .exn s1 st1
      | .fuel => .fuel
    else if op == "++pre" || op == "--pre" || op == "++post" || op == "--post" then
      match as_var_name e1 with
      | some nm =>
        match get_var st nm with
        | .error s1 => .exn s1 st
        | .ok v =>
          match to_num v with
          | some n =>
            let d : Int := if op == "++pre" || op == "++post" then 1 else -1
            let st' := set_var st nm (.VInt (n + d))
            if op == "++pre" || op == "--pre" then .ok (.VInt (n + d)) st'
            else .ok v st'
          | none => .exn (.PyError "unsupported operand type(s) for +") st
      | none => .ok .VNull st
    else .ok .VNull st
  | .TernaryOp c t e2 =>
    match eval_expr Γ f c st with
    | .ok cv st1 =>
      if truthy st1 cv then eval_expr Γ f t st1 else eval_expr Γ f e2 st1
    | .exn s1 st1 => .exn s1 st1
    | .fuel => .fuel
  | .Cast ty e1 =>
    match eval_expr Γ f e1 st with
    | .ok v st1 =>
      if str_contains ty "int" then
        match to_num v with
        | some n => .ok (.VInt n) st1
        | none => .exn (.PyError "int() argument unsupported in model") st1
      else if str_contains ty "float" || str_contains ty "double" then
        .exn (.PyError "float result unsupported in model") st1
      else if str_contains ty "String" then .ok (.VStr (py_str v)) st1
      else .ok v st1
    | .exn s1 st1 => .exn s1 st1
    | .fuel => .fuel
  | .NewArray ty sizes =>
    match sizes with
    | [] => .ok (.VArr st.heap.length) { st with heap := st.heap ++ [.JavaArray []] }
    | se :: _ =>
      match eval_expr Γ f se st with
      | .ok sv st1 =>
        match to_num sv with
        | some n =>
          let es := List.replicate n.toNat
            (if str_contains ty "int" then Value.VInt 0 else Value.VNull)
          .ok (.VArr st1.heap.length) { st1 with heap := st1.heap ++ [.JavaArray es] }
        | none => .exn (.PyError "array size must be an integer") st1
      | .exn s1 st1 => .exn s1 st1
      | .fuel => .fuel
  | .ArrayInit els =>
    match eval_exprs Γ f els st with
    | .ok vs st1 =>
      .ok (.VArr st1.heap.length) { st1 with heap := st1.heap ++ [.JavaArray vs] }
    | .exn s1 st1 => .exn s1 st1
    | .fuel => .fuel
  | .ArrayAccess ae ie =>
    match eval_expr Γ f ae st with
    | .ok av st1 =>
      match eval_expr Γ f ie st1 with
      | .ok iv st2 => py_index st2 av iv
      | .exn s1 st2 => .exn s1 st2
      | .fuel => .fuel
    | .exn s1 st1 => .exn s1 st1
    | .fuel => .fuel
  | .FieldAccess oe fname =>
    match eval_expr Γ f oe st with
    | .ok ov st1 =>
      match ov with
      | .VObj a =>
        match heap_object st1 a with
        | some (_, flds) =>
          match flds.find? (fun p => p.1 == fname) with
          | some p => .ok p.2 st1
          | none => .ok .VNull st1
        | none => .ok .VNull st1
      | .VArr a =>
        if fname == "length" then .ok (.VInt (heap_elems st1 a).length) st1
        else .ok .VNull st1
      | .VStr s1 =>
        if fname == "length" then .ok (.VInt s1.length) st1 else .ok .VNull st1
      | _ => .ok .VNull st1
    | .exn s1 st1 => .exn s1 st1
    | .fuel => .fuel
  | .NewObject cname argEs =>
    match Γ.classes.find? (fun d => d.name == cname) with
    | none => .ok .VNull st
    | some cd => new_object Γ f cd cname argEs st
  | .MethodCall objE m argEs =>
    match eval_exprs Γ f argEs st with
    | .exn s1 st1 => .exn s1 st1
    | .fuel => .fuel
    | .ok args st1 =>
      if m == "println" || m == "print" then
        let chunk :=
          match args.head? with
          | some v => py_str v ++ (if m == "println" then "\n" else "")
          | none => "\n"
        .ok .VNull { st1 with out := st1.out ++ [chunk] }
      else
        if is_math_receiver objE && is_math_func m then apply_math m args st1
        else
          match objE with
          | none => static_dispatch Γ f m args st1
          | some oe =>
            match eval_expr Γ f oe st1 with
            | .exn s1 st2 => .exn s1 st2
            | .fuel => .fuel
            | .ok ov st2 =>
              match ov with
              | .VStr s1 =>
                if is_string_method m then apply_string_method s1 m args st2
                else static_dispatch Γ f m args st2
              | .VObj a =>
                match heap_object st2 a with
                | some (cn, _) =>
                  match Γ.classes.find? (fun d => d.name == cn) with
                  | none => .exn (.PyError "AttributeError") st2
                  | some cd =>
                    match cd.methods.find?
                        (fun md => md.name == m && md.params.length == args.length) with
                    | none => static_dispatch Γ f m args st2
                    | some md => invoke_method Γ f md a args st2
                | none => static_dispatch Γ f m args st2
              | _ => static_dispatch Γ f m args st2


/-- Left-to-right evaluation of an argument list. -/
def eval_exprs (Γ : Prog) : Nat → List Expr → St → Outcome (List Value)
  | 0, _, _ => .fuel
  | f + 1, es, st =>
  match es with

  | [] => .ok [] st
  | e :: rest =>
    match eval_expr Γ f e st with
    | .ok v st1 =>
      match eval_exprs Γ f rest st1 with
      | .ok vs st2 => .ok (v :: vs) st2
      | .exn s1 st2 => .exn s1 st2
      | .fuel => .fuel
    | .exn s1 st1 => .exn s1 st1
    | .fuel => .fuel


/-- The field-initializer loop of `NewObject`: each initializer expression
is evaluated in the current state (fields without initializer get null). -/
def init_fields (Γ : Prog) : Nat → List FieldDecl → St → Outcome (List (String × Value))
  | 0, _, _ => .fuel
  | f + 1, fs, st =>
  match fs with

  | [] => .ok [] st
  | ⟨_, _, fname, fval⟩ :: rest =>
    match (match fval with
           | some ve => eval_expr Γ f ve st
           | none => Outcome.ok Value.VNull st) with
    | .ok v st1 =>
      match init_fields Γ f rest st1 with
      | .ok flds st2 => .ok ((fname, v) :: flds) st2
      | .exn s1 st2 => .exn s1 st2
      | .fuel => .fuel
    | .exn s1 st1 => .exn s1 st1
    | .fuel => .fuel


/-- The constructor parameter-binding loop: the source evaluates each
argument expression inside the constructor's context (after the new frame
is pushed and the receiver switched) and binds it with `set_var`. -/
def bind_ctor_args (Γ : Prog) : Nat → List ((String × String) × Expr) → St → Outcome Unit
  | 0, _, _ => .fuel
  | f + 1, l, st =>
  match l with

  | [] => .ok () st
  | ((_, pname), ae) :: rest =>
    match eval_expr Γ f ae st with
    | .ok av st1 => bind_ctor_args Γ f rest (set_var st1 pname av)
    | .exn s1 st1 => .exn s1 st1
    | .fuel => .fuel


/-- The "global methods" fallthrough of `MethodCall`: dispatch on the
static-method table (catching only `ReturnException`); a missing name or an
arity mismatch falls through to `return None`. -/
def static_dispatch (Γ : Prog) : Nat → String → List Value → St → Outcome Value
  | 0, _, _, _ => .fuel
  | f + 1, m, args, st =>
  match Γ.methods.find? (fun p => p.1 == m) with

  | some md =>
    if md.2.params.length == args.length then invoke_static Γ f md.2 args st
    else .ok .VNull st
  | none => .ok .VNull st


/-- `Evaluator.eval_stmt`, translated branch by branch from the source. -/
def eval_stmt (Γ : Prog) : Nat → Stmt → St → Outcome Unit
  | 0, _, _ => .fuel
  | f + 1, s, st =>
  match s with

  | .VarDecl ty n ve =>
    match (match ve with
           | some e1 => eval_expr Γ f e1 st
           | none =>
             let p := get_default_value st ty
             Outcome.ok p.1 p.2) with
    | .ok v st1 => .ok () (set_var st1 n v)
    | .exn s1 st1 => .exn s1 st1
    | .fuel => .fuel
  | .Assign n ve =>
    match eval_expr Γ f ve st with
    | .ok v st1 => .ok () (set_var st1 n v)
    | .exn s1 st1 => .exn s1 st1
    | .fuel => .fuel
  | .ArrayAssign an ie ve =>
    match get_var st an with
    | .error s1 => .exn s1 st
    | .ok av =>
      match eval_expr Γ f ie st with
      | .ok iv st1 =>
        match eval_expr Γ f ve st1 with
        | .ok vv st2 => py_index_set st2 av iv vv
        | .exn s1 st2 => .exn s1 st2
        | .fuel => .fuel
      | .exn s1 st1 => .exn s1 st1
      | .fuel => .fuel
  | .FieldAssign oe fname ve =>
    match eval_expr Γ f oe st with
    | .ok ov st1 =>
      match ov with
      | .VObj a =>
        match eval_expr Γ f ve st1 with
        | .ok vv st2 =>
          match heap_object st2 a with
          | some (cn, flds) =>
            .ok ()
              { st2 with heap := st2.heap.set a (.JavaObject cn (fields_put flds fname vv)) }
          | none => .ok () st2
        | .exn s1 st2 => .exn s1 st2
        | .fuel => .fuel
      | _ => .ok () st1
    | .exn s1 st1 => .exn s1 st1
    | .fuel => .fuel
  | .If c tb eb =>
    match eval_expr Γ f c st with
    | .ok v st1 =>
      if truthy st1 v then eval_stmts Γ f tb st1 else eval_stmts Γ f eb st1
    | .exn s1 st1 => .exn s1 st1
    | .fuel => .fuel
  | .While c b =>
    match eval_expr Γ f c st with
    | .ok v st1 =>
      if truthy st1 v then
        match eval_stmts Γ f b st1 with
        | .ok _ st2 => eval_stmt Γ f (.While c b) st2
        | .exn .BreakException st2 => .ok () st2
        | .exn .ContinueException st2 => eval_stmt Γ f (.While c b) st2
        | .exn s1 st2 => .exn s1 st2
        | .fuel => .fuel
      else .ok () st1
    | .exn s1 st1 => .exn s1 st1
    | .fuel => .fuel
  | .DoWhile b c =>
    match eval_stmts Γ f b st with
    | .ok _ st2 =>
      match eval_expr Γ f c st2 with
      | .ok v st3 =>
        if truthy st3 v then eval_stmt Γ f (.DoWhile b c) st3
        else .ok () st3
      | .exn s1 st3 => .exn s1 st3
      | .fuel => .fuel
    | .exn .BreakException st2 => .ok () st2
    | .exn .ContinueException st2 =>
      match eval_expr Γ f c st2 with
      | .ok v st3 =>
        if truthy st3 v then eval_stmt Γ f (.DoWhile b c) st3
        else .ok () st3
      | .exn s1 st3 => .exn s1 st3
      | .fuel => .fuel
    | .exn s1 st2 => .exn s1 st2
    | .fuel => .fuel
  | .For init c u b =>
    match init with
    | some i =>
      match eval_stmt Γ f i st with
      | .ok _ st1 => run_for Γ f c u b st1
      | .exn s1 st1 => .exn s1 st1
      | .fuel => .fuel
    | none => run_for Γ f c u b st
  | .ForEach _ var it b =>
    match eval_expr Γ f it st with
    | .ok v st1 =>
      match v with
      | .VArr a => run_foreach Γ f var (heap_elems st1 a) b st1
      | .VStr s1 =>
        run_foreach Γ f var (s1.data.map (fun ch => Value.VStr (String.singleton ch))) b st1
      | _ => .exn (.PyError "object is not iterable") st1
    | .exn s1 st1 => .exn s1 st1
    | .fuel => .fuel
  | .Switch e1 cases dflt =>
    match eval_expr Γ f e1 st with
    | .ok v st1 => go_switch Γ v f cases false dflt st1
    | .exn s1 st1 => .exn s1 st1
    | .fuel => .fuel
  | .Break => .exn .BreakException st
  | .Continue => .exn .ContinueException st
  | .Return ve =>
    match (match ve with
           | some e2 => eval_expr Γ f e2 st
           | none => Outcome.ok Value.VNull st) with
    | .ok v st1 => .exn (.ReturnException v) st1
    | .exn s1 st1 => .exn s1 st1
    | .fuel => .fuel
  | .ExprStmt e2 =>
    match eval_expr Γ f e2 st with
    | .ok _ st1 => .ok () st1
    | .exn s1 st1 => .exn s1 st1
    | .fuel => .fuel
  | .Try tb cbs fin =>
    match eval_stmts Γ f tb st with
    | .fuel => .fuel
    | .ok _ st1 => run_finally Γ f fin (.ok ()) st1
    | .exn sig st1 =>
      match cbs with
      | [] => run_finally Γ f fin (.ok ()) st1
      | (_, v, cbody) :: _ =>
        let st3 := set_var (push_env st1) v (.VStr (sig_to_string sig))
        match eval_stmts Γ f cbody st3 with
        | .ok _ st4 => run_finally Γ f fin (.ok ()) (pop_env st4)
        | .exn s2 st4 => run_finally Γ f fin (.error s2) st4
        | .fuel => .fuel


/-- Sequential execution of a statement list (the `for s in stmts` loops of
the source). -/
def eval_stmts (Γ : Prog) : Nat → List Stmt → St → Outcome Unit
  | 0, _, _ => .fuel
  | f + 1, ss, st =>
  match ss with

  | [] => .ok () st
  | s1 :: rest =>
    match eval_stmt Γ f s1 st with
    | .ok _ st1 => eval_stmts Γ f rest st1
    | .exn s2 st1 => .exn s2 st1
    | .fuel => .fuel


/-- The `while True` loop of the `For` statement: condition check, body
(`break` exits without running the update; `continue` falls through to the
update), update, iterate. -/
def run_for (Γ : Prog) : Nat → Option Expr → Option Stmt → List Stmt → St → Outcome Unit
  | 0, _, _, _, _ => .fuel
  | f + 1, c, u, b, st =>
  match (match c with

         | some ce =>
           match eval_expr Γ f ce st with
           | .ok v st1 => Outcome.ok (truthy st1 v) st1
           | .exn s1 st1 => Outcome.exn s1 st1
           | .fuel => Outcome.fuel
         | none => Outcome.ok true st) with
  | .fuel => .fuel
  | .exn s1 st1 => .exn s1 st1
  | .ok false st1 => .ok () st1
  | .ok true st1 =>
    match eval_stmts Γ f b st1 with
    | .exn .BreakException st2 => .ok () st2
    | .ok _ st2 =>
      match (match u with
             | some us => eval_stmt Γ f us st2
             | none => Outcome.ok () st2) with
      | .ok _ st3 => run_for Γ f c u b st3
      | .exn s1 st3 => .exn s1 st3
      | .fuel => .fuel
    | .exn .ContinueException st2 =>
      match (match u with
             | some us => eval_stmt Γ f us st2
             | none => Outcome.ok () st2) with
      | .ok _ st3 => run_for Γ f c u b st3
      | .exn s1 st3 => .exn s1 st3
      | .fuel => .fuel
    | .exn s1 st2 => .exn s1 st2
    | .fuel => .fuel


/-- The `for item in iterable` loop of `ForEach`. -/
def run_foreach (Γ : Prog) : Nat → String → List Value → List Stmt → St → Outcome Unit
  | 0, _, _, _, _ => .fuel
  | f + 1, var, items, b, st =>
  match items with
  | [] => .ok () st
  | x :: rest =>
    match eval_stmts Γ f b (set_var st var x) with
    | .ok _ st2 => run_foreach Γ f var rest b st2
    | .exn .BreakException st2 => .ok () st2
    | .exn .ContinueException st2 => run_foreach Γ f var rest b st2
    | .exn s1 st2 => .exn s1 st2
    | .fuel => .fuel



/-- The case loop of `Switch`: each case value is evaluated in order; a
case executes when it equals the scrutinee or a previous case matched
(fall-through); `break` leaves the loop (the default is then skipped since
`matched` is set); the default statement list runs only when no case
matched. -/
def go_switch (Γ : Prog) (v : Value) :
    Nat → List (Expr × List Stmt) → Bool → Option (List Stmt) → St → Outcome Unit
  | 0, _, _, _, _ => .fuel
  | f + 1, cases, matched, dflt, st =>
  match cases with

  | [] =>
    if !matched then
      match dflt with
      | some ds => eval_stmts Γ f ds st
      | none => .ok () st
    else .ok () st
  | (cv, sts) :: rest =>
    match eval_expr Γ f cv st with
    | .exn s1 st1 => .exn s1 st1
    | .fuel => .fuel
    | .ok cvv st1 =>
      if py_eq v cvv || matched then
        match eval_stmts Γ f sts st1 with
        | .ok _ st2 => go_switch Γ v f rest true dflt st2
        | .exn .BreakException st2 => .ok () st2
        | .exn s1 st2 => .exn s1 st2
        | .fuel => .fuel
      else go_switch Γ v f rest matched dflt st1


/-- Python's `finally` clause: the finally block runs, and an exception
raised by it replaces the pending result; otherwise the pending result
(normal completion or a propagating exception) is delivered. -/
def run_finally (Γ : Prog) : Nat → Option (List Stmt) → Except Signal Unit → St → Outcome Unit
  | 0, _, _, _ => .fuel
  | f + 1, fin, r, st =>
  match fin with

  | none =>
    match r with
    | .ok _ => .ok () st
    | .error s1 => .exn s1 st
  | some fs =>
    match eval_stmts Γ f fs st with
    | .ok _ st2 =>
      match r with
      | .ok _ => .ok () st2
      | .error s1 => .exn s1 st2
    | .exn s2 st2 => .exn s2 st2
    | .fuel => .fuel


/-- Execution of a static method body in a fresh frame: the source catches
only `ReturnException`, so on any other exception the frame is not popped. -/
def invoke_static (Γ : Prog) : Nat → MethodDecl → List Value → St → Outcome Value
  | 0, _, _, _ => .fuel
  | f + 1, md, args, st =>

    let st2 := bind_params (push_env st) md.params args
    match eval_stmts Γ f md.body st2 with
    | .ok _ st3 => .ok .VNull (pop_env st3)
    | .exn (.ReturnException v) st3 => .ok v (pop_env st3)
    | .exn s1 st3 => .exn s1 st3
    | .fuel => .fuel

/-- Execution of an instance method body: a fresh frame is pushed, the
receiver switched to the instance, the pre-evaluated arguments bound; only
`ReturnException` is caught, and only on the normal and return paths are
the receiver and frame restored (on errors both leak, as in the source). -/
def invoke_method (Γ : Prog) : Nat → MethodDecl → Nat → List Value → St → Outcome Value
  | 0, _, _, _, _ => .fuel
  | f + 1, md, a, args, st =>

    let old := st.current_object
    let st4 := { (push_env st) with current_object := some a }
    let st5 := bind_params st4 md.params args
    match eval_stmts Γ f md.body st5 with
    | .ok _ st6 => .ok .VNull (pop_env { st6 with current_object := old })
    | .exn (.ReturnException v) st6 =>
      .ok v (pop_env { st6 with current_object := old })
    | .exn s1 st6 => .exn s1 st6
    | .fuel => .fuel

/-- Object construction once the class declaration is found: evaluate the
field initializers in the incoming state (receiver unchanged), allocate the
instance, then run the first arity-matching constructor (if any) with the
receiver switched to the new instance; the constructor path catches nothing,
so a `return` or an error inside it leaks the frame and receiver. -/
def new_object (Γ : Prog) : Nat → ClassDecl → String → List Expr → St → Outcome Value
  | 0, _, _, _, _ => .fuel
  | f + 1, cd, cname, argEs, st =>

    match init_fields Γ f cd.fields st with
    | .exn s1 st1 => .exn s1 st1
    | .fuel => .fuel
    | .ok flds st1 =>
      let addr := st1.heap.length
      let st2 := { st1 with heap := st1.heap ++ [.JavaObject cname flds] }
      match find_ctor cd.constructors argEs.length with
      | none => .ok (.VObj addr) st2
      | some k =>
        let old := st2.current_object
        let st4 := { (push_env st2) with current_object := some addr }
        match bind_ctor_args Γ f (k.params.zip argEs) st4 with
        | .exn s1 st5 => .exn s1 st5
        | .fuel => .fuel
        | .ok _ st5 =>
          match eval_stmts Γ f k.body st5 with
          | .ok _ st6 =>
            .ok (.VObj addr) (pop_env { st6 with current_object := old })
          | .exn s1 st6 => .exn s1 st6
          | .fuel => .fuel

end

-- ===========================
-- Program entry (`Evaluator.eval_program`)
-- ===========================

/-- Python dict update for the static-method table (later entries
override). -/
def put_method (tbl : List (String × MethodDecl)) (n : String)
    (md : MethodDecl) : List (String × MethodDecl) :=
  if tbl.any (fun p => p.1 == n) then
    tbl.map (fun p => if p.1 == n then (n, md) else p)
  else tbl ++ [(n, md)]

/-- The static-method table: every method carrying the `static` modifier,
keyed by name. -/
def register_statics (classes : List ClassDecl) : List (String × MethodDecl) :=
  classes.foldl
    (fun tbl cd =>
      cd.methods.foldl
        (fun tbl md =>
          if md.modifiers.contains "static" then put_method tbl md.name md
          else tbl)
        tbl)
    []

/-- Python dict update for the class registry. -/
def put_class (l : List ClassDecl) (cd : ClassDecl) : List ClassDecl :=
  if l.any (fun d => d.name == cd.name) then
    l.map (fun d => if d.name == cd.name then cd else d)
  else l ++ [cd]

def register_classes (classes : List ClassDecl) : List ClassDecl :=
  classes.foldl put_class []

/-- First class with a `static` method named `main` (the source's nested
scan). -/
def find_main : List ClassDecl → Option MethodDecl
  | [] => none
  | cd :: rest =>
    match cd.methods.find?
        (fun md => md.name == "main" && md.modifiers.contains "static") with
    | some md => some md
    | none => find_main rest

/-- `Evaluator.eval_program`: register classes and static methods, run
`main` in a fresh frame if one exists (catching only `ReturnException`),
otherwise run the free-standing top-level statements in the global frame. -/
def eval_program (f : Nat) (classes : List ClassDecl) (stmts : List Stmt) :
    Outcome Unit :=
  let Γ : Prog :=
    { classes := register_classes classes, methods := register_statics classes }
  let st0 : St := { envs := [[]], current_object := none, heap := [], out := [] }
  match find_main classes with
  | some md =>
    match eval_stmts Γ f md.body (push_env st0) with
    | .ok _ st1 => .ok () (pop_env st1)
    | .exn (.ReturnException _) st1 => .ok () (pop_env st1)
    | .exn s1 st1 => .exn s1 st1
    | .fuel => .fuel
  | none => eval_stmts Γ f stmts st0

-- ===========================
-- Parser (the expression grammar of `Parser`, §4.2)
-- ===========================

/-- Token kinds used by the expression grammar (`TokenType`), with payloads
inlined as in the source's `Token.value`.  Floating literals are outside the
integer-fragment model. -/
inductive Tok where
  | INT (n : Int)
  | STRING (s : String)
  | CHAR (c : String)
  | TRUE
  | FALSE
  | NULL
  | INT_TYPE
  | FLOAT_TYPE
  | DOUBLE_TYPE
  | BOOLEAN_TYPE
  | CHAR_TYPE
  | STRING_TYPE
  | VOID
  | ID (s : String)
  | THIS
  | NEW
  | PLUS
  | MINUS
  | STAR
  | SLASH
  | PERCENT
  | EQ
  | NE
  | LT
  | LE
  | GT
  | GE
  | AND
  | OR
  | NOT
  | PLUSPLUS
  | MINUSMINUS
  | QUESTION
  | COLON
  | LPAREN
  | RPAREN
  | LBRACE
  | RBRACE
  | LBRACKET
  | RBRACKET
  | SEMICOLON
  | COMMA
  | DOT
  | EOF
deriving Repr, DecidableEq

/-- `Parser.current`: the token at the cursor, or the last token (EOF) when
past the end. -/
def cur (ts : List Tok) (pos : Nat) : Tok :=
  if pos < ts.length then ts.getD pos .EOF else ts.getLastD .EOF

/-- `Parser.peek` with the default offset 1. -/
def peek1 (ts : List Tok) (pos : Nat) : Tok := cur ts (pos + 1)

/-- `Parser.advance`: the cursor saturates at the final token. -/
def adv (ts : List Tok) (pos : Nat) : Nat :=
  if pos < ts.length - 1 then pos + 1 else pos

/-- `Parser.expect`. -/
def expect_tok (ts : List Tok) (pos : Nat) (t : Tok) : Except String Nat :=
  if cur ts pos = t then .ok (adv ts pos) else .error "Expected token"

/-- The primitive-type keywords accepted as a cast target (`parse_unary`). -/
def is_cast_type : Tok → Bool
  | .INT_TYPE | .FLOAT_TYPE | .DOUBLE_TYPE | .BOOLEAN_TYPE | .CHAR_TYPE => true
  | _ => false

/-- The `type_map` of `Parser.parse_type`. -/
def type_name : Tok → Option String
  | .INT_TYPE => some "int"
  | .FLOAT_TYPE => some "float"
  | .DOUBLE_TYPE => some "double"
  | .BOOLEAN_TYPE => some "boolean"
  | .CHAR_TYPE => some "char"
  | .STRING_TYPE => some "String"
  | .VOID => some "void"
  | .ID s => some s
  | _ => none

/-- Relational token table of `parse_relational`. -/
def rel_op : Tok → Option String
  | .LT => some "<"
  | .LE => some "<="
  | .GT => some ">"
  | .GE => some ">="
  | _ => none

set_option maxHeartbeats 8000000 in
mutual

/-- `Parser.parse_expr`: entry of the precedence-climbing chain. -/
def parse_expr (ts : List Tok) : Nat → Nat → Except String (Expr × Nat)
  | 0, _ => .error "out of fuel"
  | f + 1, pos => parse_ternary ts f pos
termination_by structural f _ => f

/-- `Parser.parse_ternary` (level 1, right-associative via the recursive
`parse_expr` calls for both arms). -/
def parse_ternary (ts : List Tok) : Nat → Nat → Except String (Expr × Nat)
  | 0, _ => .error "out of fuel"
  | f + 1, pos =>
    match parse_or ts f pos with
    | .error e => .error e
    | .ok (c, p1) =>
      if cur ts p1 = .QUESTION then
        match parse_expr ts f (adv ts p1) with
        | .error e => .error e
        | .ok (t, p2) =>
          match expect_tok ts p2 .COLON with
          | .error e => .error e
          | .ok p3 =>
            match parse_expr ts f p3 with
            | .error e => .error e
            | .ok (e2, p4) => .ok (.TernaryOp c t e2, p4)
      else .ok (c, p1)
termination_by structural f _ => f

/-- `Parser.parse_or` (level 2, left-associative `while` loop). -/
def parse_or (ts : List Tok) : Nat → Nat → Except String (Expr × Nat)
  | 0, _ => .error "out of fuel"
  | f + 1, pos =>
    match parse_and ts f pos with
    | .error e => .error e
    | .ok (l, p1) => parse_or_rest ts f l p1
termination_by structural f _ => f

def parse_or_rest (ts : List Tok) : Nat → Expr → Nat → Except String (Expr × Nat)
  | 0, _, _ => .error "out of fuel"
  | f + 1, l, pos =>
    if cur ts pos = .OR then
      match parse_and ts f (adv ts pos) with
      | .error e => .error e
      | .ok (r, p2) => parse_or_rest ts f (.BinOp "||" l r) p2
    else .ok (l, pos)
termination_by structural f _ _ => f

/-- `Parser.parse_and` (level 3, left-associative). -/
def parse_and (ts : List Tok) : Nat → Nat → Except String (Expr × Nat)
  | 0, _ => .error "out of fuel"
  | f + 1, pos =>
    match parse_equality ts f pos with
    | .error e => .error e
    | .ok (l, p1) => parse_and_rest ts f l p1
termination_by structural f _ => f

def parse_and_rest (ts : List Tok) : Nat → Expr → Nat → Except String (Expr × Nat)
  | 0, _, _ => .error "out of fuel"
  | f + 1, l, pos =>
    if cur ts pos = .AND then
      match parse_equality ts f (adv ts pos) with
      | .error e => .error e
      | .ok (r, p2) => parse_and_rest ts f (.BinOp "&&" l r) p2
    else .ok (l, pos)
termination_by structural f _ _ => f

/-- `Parser.parse_equality` (level 4, left-associative over `==`/`!=`). -/
def parse_equality (ts : List Tok) : Nat → Nat → Except String (Expr × Nat)
  | 0, _ => .error "out of fuel"
  | f + 1, pos =>
    match parse_relational ts f pos with
    | .error e => .error e
    | .ok (l, p1) => parse_equality_rest ts f l p1
termination_by structural f _ => f

def parse_equality_rest (ts : List Tok) :
    Nat → Expr → Nat → Except String (Expr × Nat)
  | 0, _, _ => .error "out of fuel"
  | f + 1, l, pos =>
    if cur ts pos = .EQ ∨ cur ts pos = .NE then
      match parse_relational ts f (adv ts pos) with
      | .error e => .error e
      | .ok (r, p2) =>
        parse_equality_rest ts f
          (.BinOp (if cur ts pos = .EQ then "==" else "!=") l r) p2
    else .ok (l, pos)
termination_by structural f _ _ => f

/-- `Parser.parse_relational` (level 5): a plain `if`, not a loop, so at
most one relational operator is consumed — the level is non-associative. -/
def parse_relational (ts : List Tok) : Nat → Nat → Except String (Expr × Nat)
  | 0, _ => .error "out of fuel"
  | f + 1, pos =>
    match parse_additive ts f pos with
    | .error e => .error e
    | .ok (l, p1) =>
      match rel_op (cur ts p1) with
      | some op =>
        match parse_additive ts f (adv ts p1) with
        | .error e => .error e
        | .ok (r, p2) => .ok (.BinOp op l r, p2)
      | none => .ok (l, p1)
termination_by structural f _ => f

/-- `Parser.parse_additive` (level 6, left-associative over `+`/`-`). -/
def parse_additive (ts : List Tok) : Nat → Nat → Except String (Expr × Nat)
  | 0, _ => .error "out of fuel"
  | f + 1, pos =>
    match parse_multiplicative ts f pos with
    | .error e => .error e
    | .ok (l, p1) => parse_additive_rest ts f l p1
termination_by structural f _ => f

def parse_additive_rest (ts : List Tok) :
    Nat → Expr → Nat → Except String (Expr × Nat)
  | 0, _, _ => .error "out of fuel"
  | f + 1, l, pos =>
    if cur ts pos = .PLUS ∨ cur ts pos = .MINUS then
      match parse_multiplicative ts f (adv ts pos) with
      | .error e => .error e
      | .ok (r, p2) =>
        parse_additive_rest ts f
          (.BinOp (if cur ts pos = .PLUS then "+" else "-") l r) p2
    else .ok (l, pos)
termination_by structural f _ _ => f

/-- `Parser.parse_multiplicative` (level 7, left-associative over
`*`/`/`/`%`). -/
def parse_multiplicative (ts : List Tok) : Nat → Nat → Except String (Expr × Nat)
  | 0, _ => .error "out of fuel"
  | f + 1, pos =>
    match parse_unary ts f pos with
    | .error e => .error e
    | .ok (l, p1) => parse_multiplicative_rest ts f l p1
termination_by structural f _ => f

def parse_multiplicative_rest (ts : List Tok) :
    Nat → Expr → Nat → Except String (Expr × Nat)
  | 0, _, _ => .error "out of fuel"
  | f + 1, l, pos =>
    if cur ts pos = .STAR ∨ cur ts pos = .SLASH ∨ cur ts pos = .PERCENT then
      match parse_unary ts f (adv ts pos) with
      | .error e => .error e
      | .ok (r, p2) =>
        parse_multiplicative_rest ts f
          (.BinOp (if cur ts pos = .STAR then "*"
                   else if cur ts pos = .SLASH then "/" else "%") l r) p2
    else .ok (l, pos)
termination_by structural f _ _ => f

/-- `Parser.parse_unary` (level 8: prefix operators and the primitive-type
cast disambiguation). -/
def parse_unary (ts : List Tok) : Nat → Nat → Except String (Expr × Nat)
  | 0, _ => .error "out of fuel"
  | f + 1, pos =>
    if cur ts pos = .NOT then
      match parse_unary ts f (adv ts pos) with
      | .error e => .error e
      | .ok (r, p2) => .ok (.UnaryOp "!" r, p2)
    else if cur ts pos = .MINUS then
      match parse_unary ts f (adv ts pos) with
      | .error e => .error e
      | .ok (r, p2) => .ok (.UnaryOp "-" r, p2)
    else if cur ts pos = .PLUS then parse_unary ts f (adv ts pos)
    else if cur ts pos = .PLUSPLUS then
      match parse_unary ts f (adv ts pos) with
      | .error e => .error e
      | .ok (r, p2) => .ok (.UnaryOp "++pre" r, p2)
    else if cur ts pos = .MINUSMINUS then
      match parse_unary ts f (adv ts pos) with
      | .error e => .error e
      | .ok (r, p2) => .ok (.UnaryOp "--pre" r, p2)
    else if cur ts pos = .LPAREN ∧ is_cast_type (peek1 ts pos) then
      match parse_type ts f (adv ts pos) with
      | .error e => .error e
      | .ok (ty, p1) =>
        match expect_tok ts p1 .RPAREN with
        | .error e => .error e
        | .ok p2 =>
          match parse_unary ts f p2 with
          | .error e => .error e
          | .ok (r, p3) => .ok (.Cast ty r, p3)
    else parse_postfix ts f pos
termination_by structural f _ => f

/-- `Parser.parse_type` (name, then a loop appending `[]`). -/
def parse_type (ts : List Tok) : Nat → Nat → Except String (String × Nat)
  | 0, _ => .error "out of fuel"
  | f + 1, pos =>
    match type_name (cur ts pos) with
    | some s => parse_type_brackets ts f s (adv ts pos)
    | none => .error "Expected type"

def parse_type_brackets (ts : List Tok) :
    Nat → String → Nat → Except String (String × Nat)
  | 0, _, _ => .error "out of fuel"
  | f + 1, s, pos =>
    if cur ts pos = .LBRACKET then
      match expect_tok ts (adv ts pos) .RBRACKET with
      | .error e => .error e
      | .ok p2 => parse_type_brackets ts f (s ++ "[]") p2
    else .ok (s, pos)
termination_by structural f _ _ => f

/-- `Parser.parse_postfix` (level 9: `[i]`, `.name`, `.name(args)`,
postfix `++`/`--`). -/
def parse_postfix (ts : List Tok) : Nat → Nat → Except String (Expr × Nat)
  | 0, _ => .error "out of fuel"
  | f + 1, pos =>
    match parse_primary ts f pos with
    | .error e => .error e
    | .ok (e, p1) => parse_postfix_rest ts f e p1
termination_by structural f _ => f

def parse_postfix_rest (ts : List Tok) :
    Nat → Expr → Nat → Except String (Expr × Nat)
  | 0, _, _ => .error "out of fuel"
  | f + 1, e, pos =>
    if cur ts pos = .LBRACKET then
      match parse_expr ts f (adv ts pos) with
      | .error e2 => .error e2
      | .ok (ix, p2) =>
        match expect_tok ts p2 .RBRACKET with
        | .error e2 => .error e2
        | .ok p3 => parse_postfix_rest ts f (.ArrayAccess e ix) p3
    else if cur ts pos = .DOT then
      match cur ts (adv ts pos) with
      | .ID name =>
        let p2 := adv ts (adv ts pos)
        if cur ts p2 = .LPAREN then
          match parse_args ts f (adv ts p2) with
          | .error e2 => .error e2
          | .ok (args, p3) =>
            match expect_tok ts p3 .RPAREN with
            | .error e2 => .error e2
            | .ok p4 => parse_postfix_rest ts f (.MethodCall (some e) name args) p4
        else parse_postfix_rest ts f (.FieldAccess e name) p2
      | _ => .error "Expected field or method name"
    else if cur ts pos = .PLUSPLUS then
      parse_postfix_rest ts f (.UnaryOp "++post" e) (adv ts pos)
    else if cur ts pos = .MINUSMINUS then
      parse_postfix_rest ts f (.UnaryOp "--post" e) (adv ts pos)
    else .ok (e, pos)
termination_by structural f _ _ => f

/-- `Parser.parse_primary` (level 10). -/
def parse_primary (ts : List Tok) : Nat → Nat → Except String (Expr × Nat)
  | 0, _ => .error "out of fuel"
  | f + 1, pos =>
    match cur ts pos with
    | .INT n => .ok (.IntLit n, adv ts pos)
    | .STRING s => .ok (.StringLit s, adv ts pos)
    | .CHAR c => .ok (.CharLit c, adv ts pos)
    | .TRUE => .ok (.BoolLit true, adv ts pos)
    | .FALSE => .ok (.BoolLit false, adv ts pos)
    | .NULL => .ok (.NullLit, adv ts pos)
    | .THIS => .ok (.Variable "this", adv ts pos)
    | .NEW =>
      let p1 := adv ts pos
      match (match cur ts p1 with
             | .ID tn => Except.ok (tn, adv ts p1)
             | _ => parse_type ts f p1) with
      | .error e => .error e
      | .ok (tn, p2) =>
        if cur ts p2 = .LBRACKET then
          match parse_new_array_sizes ts f [] p2 with
          | .error e => .error e
          | .ok (sizes, p3) => .ok (.NewArray tn sizes, p3)
        else if cur ts p2 = .LPAREN then
          match parse_args ts f (adv ts p2) with
          | .error e => .error e
          | .ok (args, p3) =>
            match expect_tok ts p3 .RPAREN with
            | .error e => .error e
            | .ok p4 => .ok (.NewObject tn args, p4)
        else .error "Expected ( or [ after new"
    | .LBRACE =>
      let p1 := adv ts pos
      if cur ts p1 = .RBRACE then .ok (.ArrayInit [], adv ts p1)
      else
        match parse_expr ts f p1 with
        | .error e => .error e
        | .ok (e, p2) => parse_array_init_rest ts f [e] p2
    | .ID name =>
      let p1 := adv ts pos
      if cur ts p1 = .LPAREN then
        match parse_args ts f (adv ts p1) with
        | .error e => .error e
        | .ok (args, p2) =>
          match expect_tok ts p2 .RPAREN with
          | .error e => .error e
          | .ok p3 => .ok (.MethodCall none name args, p3)
      else .ok (.Variable name, p1)
    | .LPAREN =>
      match parse_expr ts f (adv ts pos) with
      | .error e => .error e
      | .ok (e, p2) =>
        match expect_tok ts p2 .RPAREN with
        | .error e => .error e
        | .ok p3 => .ok (e, p3)
    | _ => .error "Unexpected token"
termination_by structural f _ => f

/-- The `while` loop of array-creation sizes in `parse_primary`
(`[` size? `]` repeated). -/
def parse_new_array_sizes (ts : List Tok) :
    Nat → List Expr → Nat → Except String (List Expr × Nat)
  | 0, _, _ => .error "out of fuel"
  | f + 1, acc, pos =>
    if cur ts pos = .LBRACKET then
      let p1 := adv ts pos
      if cur ts p1 = .RBRACKET then
        parse_new_array_sizes ts f acc (adv ts p1)
      else
        match parse_expr ts f p1 with
        | .error e => .error e
        | .ok (e, p2) =>
          match expect_tok ts p2 .RBRACKET with
          | .error e2 => .error e2
          | .ok p3 => parse_new_array_sizes ts f (acc ++ [e]) p3
    else .ok (acc, pos)
termination_by structural f _ _ => f

/-- The element loop of a brace array initializer (`{ e, e, … }`), with the
source's tolerance of a trailing comma. -/
def parse_array_init_rest (ts : List Tok) :
    Nat → List Expr → Nat → Except String (Expr × Nat)
  | 0, _, _ => .error "out of fuel"
  | f + 1, acc, pos =>
    if cur ts pos = .COMMA then
      let p1 := adv ts pos
      if cur ts p1 = .RBRACE then .ok (.ArrayInit acc, adv ts p1)
      else
        match parse_expr ts f p1 with
        | .error e => .error e
        | .ok (e, p2) => parse_array_init_rest ts f (acc ++ [e]) p2
    else
      match expect_tok ts pos .RBRACE with
      | .error e => .error e
      | .ok p1 => .ok (.ArrayInit acc, p1)
termination_by structural f _ _ => f

/-- `Parser.parse_args`. -/
def parse_args (ts : List Tok) :
    Nat → Nat → Except String (List Expr × Nat)
  | 0, _ => .error "out of fuel"
  | f + 1, pos =>
    if cur ts pos = .RPAREN ∨ cur ts pos = .EOF then .ok ([], pos)
    else
      match parse_expr ts f pos with
      | .error e => .error e
      | .ok (e, p1) => parse_args_rest ts f [e] p1
termination_by structural f _ => f

def parse_args_rest (ts : List Tok) :
    Nat → List Expr → Nat → Except String (List Expr × Nat)
  | 0, _, _ => .error "out of fuel"
  | f + 1, acc, pos =>
    if cur ts pos = .COMMA then
      match parse_expr ts f (adv ts pos) with
      | .error e => .error e
      | .ok (e, p2) => parse_args_rest ts f (acc ++ [e]) p2
    else .ok (acc, pos)

termination_by structural f _ _ => f
end

-- ===========================
-- Specification-side definitions (for the switch claim)
-- ===========================

/-- The fall-through phase of the specified `switch` behavior: "once a case
matches, all subsequent cases' statement lists execute until a `break` or
the end of the switch".  Fuel follows the evaluator's convention of one
unit per case. -/
def post_match (Γ : Prog) : Nat → List (Expr × List Stmt) → St → Outcome Unit
  | 0, _, _ => .fuel
  | _ + 1, [], st => .ok () st
  | g + 1, (_, sts) :: rest, st =>
    match eval_stmts Γ g sts st with
    | .ok _ st2 => post_match Γ g rest st2
    | .exn .BreakException st2 => .ok () st2
    | .exn s1 st2 => .exn s1 st2
    | .fuel => .fuel

/-- The specified `switch` behavior on an already-evaluated scrutinee `v`,
for case-value expressions whose evaluation is pure with value `pv`:
"test each case value in order for equality against the scrutinee; once a
case matches, execute all subsequent cases' statement lists (fall-through)
until a `break` or the end of the switch; the default branch runs only if
no case matched". -/
def spec_switch (Γ : Prog) (v : Value) (pv : Expr → Value) :
    Nat → List (Expr × List Stmt) → Option (List Stmt) → St → Outcome Unit
  | 0, _, _, _ => .fuel
  | g + 1, [], dflt, st =>
    (match dflt with
     | some ds => eval_stmts Γ g ds st
     | none => .ok () st)
  | g + 1, (cv, sts) :: rest, dflt, st =>
    if py_eq v (pv cv) then post_match Γ (g + 1) ((cv, sts) :: rest) st
    else spec_switch Γ v pv g rest dflt st

-- ===========================
-- Concrete fixtures for the claim theorems
-- ===========================

/-- An empty program context (no classes, no static methods). -/
def prog_empty : Prog := ⟨[], []⟩

/-- The initial state: just the global frame. -/
def st_init : St := ⟨[[]], none, [], []⟩

/-- A class whose method `m` raises the runtime error `Division by zero`. -/
def class_A : ClassDecl :=
  ⟨[], "A", [], [],
   [⟨["public"], "int", "m", [],
     [.Return (some (.BinOp "/" (.IntLit 1) (.IntLit 0)))]⟩]⟩

def prog_div : Prog := ⟨[class_A], []⟩

/-- A state with one `A` instance on the heap, bound to `o`, no receiver. -/
def st_recv : St := ⟨[[("o", .VObj 0)]], none, [.JavaObject "A" []], []⟩

/-- A class with a 1-argument constructor and a 1-argument method, used to
call both with the wrong arity. -/
def class_C : ClassDecl :=
  ⟨[], "C", [], [⟨[], "C", [("int", "x")], []⟩],
   [⟨[], "int", "m", [("int", "x")], []⟩]⟩

def prog_arity : Prog := ⟨[class_C], []⟩

def st_arity : St := ⟨[[("o", .VObj 0)]], none, [.JavaObject "C" []], []⟩

/-- A 1-argument static method, to be called with the wrong arity. -/
def sm_decl : MethodDecl := ⟨[], "int", "sm", [("int", "x")], []⟩

/-- The class `C` together with a registered static method `sm`. -/
def prog_static : Prog := ⟨[class_C], [("sm", sm_decl)]⟩

/-- A class whose only field initializer reads the bare variable `ax`. -/
def class_B : ClassDecl :=
  ⟨[], "B", [⟨[], "int", "y", some (.Variable "ax")⟩], [], []⟩

def prog_encl : Prog := ⟨[class_B], []⟩

/-- A state in which the current receiver is an `A` instance whose field
`ax` holds 7 (as inside a method of that instance). -/
def st_encl : St := ⟨[[]], some 0, [.JavaObject "A" [("ax", .VInt 7)]], []⟩

/-- The pure value of an integer-literal case expression. -/
def wit_pv : Expr → Value
  | .IntLit n => .VInt n
  | _ => .VNull

/-- Four switch cases printing distinct letters; the third ends with
`break`. -/
def wit_cases : List (Expr × List Stmt) :=
  [(.IntLit 1, [.ExprStmt (.MethodCall none "print" [.StringLit "a"])]),
   (.IntLit 2, [.ExprStmt (.MethodCall none "print" [.StringLit "b"])]),
   (.IntLit 3, [.ExprStmt (.MethodCall none "print" [.StringLit "c"]), .Break]),
   (.IntLit 4, [.ExprStmt (.MethodCall none "print" [.StringLit "d"])])]

def wit_default : List Stmt := [.ExprStmt (.MethodCall none "print" [.StringLit "dd"])]

/-- String view of a value (the `isinstance(-, str)` test of the `+`
overload). -/
def is_str : Value → Bool
  | .VStr _ => true
  | _ => false

-- ===========================
-- Precedence checker (for the parser claim)
-- ===========================

/-- The binary operator tokens with their operator strings. -/
def binop_toks : List (Tok × String) :=
  [(.OR, "||"), (.AND, "&&"), (.EQ, "=="), (.NE, "!="),
   (.LT, "<"), (.LE, "<="), (.GT, ">"), (.GE, ">="),
   (.PLUS, "+"), (.MINUS, "-"), (.STAR, "*"), (.SLASH, "/"), (.PERCENT, "%")]

/-- The precedence table of the spec (higher binds tighter; level 5 is the
non-associative relational level). -/
def prec_level : String → Nat := fun op =>
  if op == "||" then 2
  else if op == "&&" then 3
  else if op == "==" || op == "!=" then 4
  else if op == "<" || op == "<=" || op == ">" || op == ">=" then 5
  else if op == "+" || op == "-" then 6
  else 7

/-- `e` is exactly `x OP y`. -/
def matches_single (e : Expr) (op : String) : Bool :=
  match e with
  | .BinOp o (.Variable a) (.Variable b) => o == op && a == "x" && b == "y"
  | _ => false

/-- `e` is exactly `(x OP1 y) OP2 z`. -/
def matches_left_grouped (e : Expr) (o1 o2 : String) : Bool :=
  match e with
  | .BinOp ob (.BinOp oa (.Variable a) (.Variable b)) (.Variable c) =>
    ob == o2 && oa == o1 && a == "x" && b == "y" && c == "z"
  | _ => false

/-- `e` is exactly `x OP1 (y OP2 z)`. -/
def matches_right_grouped (e : Expr) (o1 o2 : String) : Bool :=
  match e with
  | .BinOp oa (.Variable a) (.BinOp ob (.Variable b) (.Variable c)) =>
    oa == o1 && ob == o2 && a == "x" && b == "y" && c == "z"
  | _ => false

/-- For the token stream `x OP1 y OP2 z`, the parsed tree groups by the
precedence table: the tighter operator groups first, equal levels group to
the left, and two relational operators do not combine (the parse stops
after `x OP1 y`, at token index 3). -/
def check_pair (p1 p2 : Tok × String) : Bool :=
  let ts : List Tok := [.ID "x", p1.1, .ID "y", p2.1, .ID "z", .EOF]
  match parse_expr ts 16 0 with
  | .ok (e, pos) =>
    if prec_level p1.2 == 5 && prec_level p2.2 == 5 then
      matches_single e p1.2 && pos == 3
    else if prec_level p1.2 < prec_level p2.2 then
      matches_right_grouped e p1.2 p2.2 && pos == 5
    else matches_left_grouped e p1.2 p2.2 && pos == 5
  | .error _ => false

/-- `x < y < z` parses as the single relational `x < y` with the second `<`
left unconsumed (so the chain is not accepted as one expression; a caller
expecting a following token then fails). -/
def rel_chain_check : Bool :=
  match parse_expr [.ID "x", .LT, .ID "y", .LT, .ID "z", .EOF] 16 0 with
  | .ok (e, pos) => matches_single e "<" && pos == 3
  | .error _ => false

/-- `x ? y : z ? w : v` groups to the right. -/
def ternary_right_assoc_check : Bool :=
  match parse_expr [.ID "x", .QUESTION, .ID "y", .COLON, .ID "z",
                    .QUESTION, .ID "w", .COLON, .ID "v", .EOF] 16 0 with
  | .ok (.TernaryOp (.Variable a) (.Variable b)
          (.TernaryOp (.Variable c) (.Variable d) (.Variable e)), pos) =>
    a == "x" && b == "y" && c == "z" && d == "w" && e == "v" && pos == 9
  | _ => false

/-- `x || y ? a : b` parses as `(x || y) ? a : b` (ternary is lowest). -/
def ternary_lowest_check : Bool :=
  match parse_expr [.ID "x", .OR, .ID "y", .QUESTION, .ID "a", .COLON,
                    .ID "b", .EOF] 16 0 with
  | .ok (.TernaryOp (.BinOp o (.Variable a) (.Variable b)) (.Variable c)
          (.Variable d), pos) =>
    o == "||" && a == "x" && b == "y" && c == "a" && d == "b" && pos == 7
  | _ => false

/-- `-x * y` parses as `(-x) * y` (unary binds tighter than `*`). -/
def unary_tighter_check : Bool :=
  match parse_expr [.MINUS, .ID "x", .STAR, .ID "y", .EOF] 16 0 with
  | .ok (.BinOp o (.UnaryOp u (.Variable a)) (.Variable b), pos) =>
    o == "*" && u == "-" && a == "x" && b == "y" && pos == 4
  | _ => false

/-- `-x++` parses as `-(x++)` (postfix binds tighter than prefix). -/
def postfix_tighter_check : Bool :=
  match parse_expr [.MINUS, .ID "x", .PLUSPLUS, .EOF] 16 0 with
  | .ok (.UnaryOp u1 (.UnaryOp u2 (.Variable a)), pos) =>
    u1 == "-" && u2 == "++post" && a == "x" && pos == 3
  | _ => false

-- ===========================
-- One-unfold step lemmas for the fuel-indexed evaluator
-- ===========================

/-- One unfold of `eval_expr` on a boolean literal. -/
theorem eval_boollit_step (Γ : Prog) (f : Nat) (b : Bool) (st : St) :
    eval_expr Γ (f + 1) (.BoolLit b) st = .ok (.VBool b) st := rfl

/-- One unfold of `eval_expr` on a binary operation. -/
theorem eval_binop_step (Γ : Prog) (f : Nat) (op : String) (l r : Expr) (st : St) :
    eval_expr Γ (f + 1) (.BinOp op l r) st
      = (match eval_expr Γ f l st with
         | .fuel => .fuel
         | .exn s1 st1 => .exn s1 st1
         | .ok lv st1 =>
           if op == "&&" then
             (if truthy st1 lv then eval_expr Γ f r st1 else .ok lv st1)
           else if op == "||" then
             (if truthy st1 lv then .ok lv st1 else eval_expr Γ f r st1)
           else
             match eval_expr Γ f r st1 with
             | .fuel => .fuel
             | .exn s1 st2 => .exn s1 st2
             | .ok rv st2 => apply_binop op lv rv st2) := rfl

/-- One unfold of `eval_expr` on a variable. -/
theorem eval_var_step (Γ : Prog) (f : Nat) (n : String) (st : St) :
    eval_expr Γ (f + 1) (.Variable n) st
      = (if n == "this" then
           match st.current_object with
           | some a => .ok (.VObj a) st
           | none => .ok .VNull st
         else
           match get_var st n with
           | .ok v => .ok v st
           | .error s1 => .exn s1 st) := rfl

/-- One unfold of `eval_expr` on object creation. -/
theorem eval_newobject_step (Γ : Prog) (f : Nat) (c : String) (args : List Expr) (st : St) :
    eval_expr Γ (f + 1) (.NewObject c args) st
      = (match Γ.classes.find? (fun d => d.name == c) with
         | none => .ok .VNull st
         | some cd => new_object Γ f cd c args st) := rfl

/-- One unfold of `new_object`. -/
theorem new_object_step (Γ : Prog) (f : Nat) (cd : ClassDecl) (cname : String)
    (argEs : List Expr) (st : St) :
    new_object Γ (f + 1) cd cname argEs st
      = (match init_fields Γ f cd.fields st with
         | .exn s1 st1 => .exn s1 st1
         | .fuel => .fuel
         | .ok flds st1 =>
           let addr := st1.heap.length
           let st2 := { st1 with heap := st1.heap ++ [.JavaObject cname flds] }
           match find_ctor cd.constructors argEs.length with
           | none => .ok (.VObj addr) st2
           | some k =>
             let old := st2.current_object
             let st4 := { (push_env st2) with current_object := some addr }
             match bind_ctor_args Γ f (k.params.zip argEs) st4 with
             | .exn s1 st5 => .exn s1 st5
             | .fuel => .fuel
             | .ok _ st5 =>
               match eval_stmts Γ f k.body st5 with
               | .ok _ st6 =>
                 .ok (.VObj addr) (pop_env { st6 with current_object := old })
               | .exn s1 st6 => .exn s1 st6
               | .fuel => .fuel) := rfl

/-- One unfold of `eval_expr` on an unqualified method call. -/
theorem eval_methodcall_none_step (Γ : Prog) (f : Nat) (m : String)
    (argEs : List Expr) (st : St) :
    eval_expr Γ (f + 1) (.MethodCall none m argEs) st
      = (match eval_exprs Γ f argEs st with
         | .exn s1 st1 => .exn s1 st1
         | .fuel => .fuel
         | .ok args st1 =>
           if m == "println" || m == "print" then
             let chunk :=
               match args.head? with
               | some v => py_str v ++ (if m == "println" then "\n" else "")
               | none => "\n"
             Outcome.ok .VNull { st1 with out := st1.out ++ [chunk] }
           else
             if is_math_receiver none && is_math_func m then apply_math m args st1
             else static_dispatch Γ f m args st1) := rfl

/-- One unfold of `static_dispatch`. -/
theorem static_dispatch_step (Γ : Prog) (f : Nat) (m : String) (args : List Value) (st : St) :
    static_dispatch Γ (f + 1) m args st
      = (match Γ.methods.find? (fun p => p.1 == m) with
         | some md =>
           if md.2.params.length == args.length then invoke_static Γ f md.2 args st
           else .ok .VNull st
         | none => .ok .VNull st) := rfl

/-- One unfold of `init_fields` on the empty field list. -/
theorem init_fields_nil_step (Γ : Prog) (f : Nat) (st : St) :
    init_fields Γ (f + 1) [] st = .ok [] st := rfl

/-- One unfold of `init_fields` on a field declaration. -/
theorem init_fields_cons_step (Γ : Prog) (f : Nat) (mods : List String)
    (ty fname : String) (fval : Option Expr) (rest : List FieldDecl) (st : St) :
    init_fields Γ (f + 1) (⟨mods, ty, fname, fval⟩ :: rest) st
      = (match (match fval with
                | some ve => eval_expr Γ f ve st
                | none => Outcome.ok Value.VNull st) with
         | .ok v st1 =>
           match init_fields Γ f rest st1 with
           | .ok flds st2 => .ok ((fname, v) :: flds) st2
           | .exn s1 st2 => .exn s1 st2
           | .fuel => .fuel
         | .exn s1 st1 => .exn s1 st1
         | .fuel => .fuel) := rfl

/-- One unfold of `eval_stmt` on a `try` statement. -/
theorem eval_try_step (Γ : Prog) (f : Nat) (tb : List Stmt)
    (cbs : List (String × String × List Stmt)) (fin : Option (List Stmt)) (st : St) :
    eval_stmt Γ (f + 1) (.Try tb cbs fin) st
      = (match eval_stmts Γ f tb st with
         | .fuel => .fuel
         | .ok _ st1 => run_finally Γ f fin (.ok ()) st1
         | .exn sig st1 =>
           match cbs with
           | [] => run_finally Γ f fin (.ok ()) st1
           | (_, v, cbody) :: _ =>
             let st3 := set_var (push_env st1) v (.VStr (sig_to_string sig))
             match eval_stmts Γ f cbody st3 with
             | .ok _ st4 => run_finally Γ f fin (.ok ()) (pop_env st4)
             | .exn s2 st4 => run_finally Γ f fin (.error s2) st4
             | .fuel => .fuel) := rfl

/-- One unfold of `run_finally` with a finally block present. -/
theorem run_finally_some_step (Γ : Prog) (f : Nat) (fs : List Stmt)
    (r : Except Signal Unit) (st : St) :
    run_finally Γ (f + 1) (some fs) r st
      = (match eval_stmts Γ f fs st with
         | .ok _ st2 =>
           match r with
           | .ok _ => .ok () st2
           | .error s1 => .exn s1 st2
         | .exn s2 st2 => .exn s2 st2
         | .fuel => .fuel) := rfl

/-- One unfold of `eval_stmts` on a nonempty statement list. -/
theorem eval_stmts_cons_step (Γ : Prog) (f : Nat) (s1 : Stmt) (rest : List Stmt) (st : St) :
    eval_stmts Γ (f + 1) (s1 :: rest) st
      = (match eval_stmt Γ f s1 st with
         | .ok _ st1 => eval_stmts Γ f rest st1
         | .exn s2 st1 => .exn s2 st1
         | .fuel => .fuel) := rfl

/-- One unfold of `eval_stmt` on a `switch` statement. -/
theorem eval_switch_step (Γ : Prog) (f : Nat) (e1 : Expr)
    (cases : List (Expr × List Stmt)) (dflt : Option (List Stmt)) (st : St) :
    eval_stmt Γ (f + 1) (.Switch e1 cases dflt) st
      = (match eval_expr Γ f e1 st with
         | .ok v st1 => go_switch Γ v f cases false dflt st1
         | .exn s1 st1 => .exn s1 st1
         | .fuel => .fuel) := rfl

/-- One unfold of `go_switch` on a case. -/
theorem go_switch_cons_step (Γ : Prog) (v : Value) (f : Nat) (cv : Expr)
    (sts : List Stmt) (rest : List (Expr × List Stmt)) (matched : Bool)
    (dflt : Option (List Stmt)) (st : St) :
    go_switch Γ v (f + 1) ((cv, sts) :: rest) matched dflt st
      = (match eval_expr Γ f cv st with
         | .exn s1 st1 => .exn s1 st1
         | .fuel => .fuel
         | .ok cvv st1 =>
           if py_eq v cvv || matched then
             match eval_stmts Γ f sts st1 with
             | .ok _ st2 => go_switch Γ v f rest true dflt st2
             | .exn .BreakException st2 => .ok () st2
             | .exn s1 st2 => .exn s1 st2
             | .fuel => .fuel
           else go_switch Γ v f rest matched dflt st1) := rfl

/-- One unfold of `post_match` on a case. -/
theorem post_match_cons_step (Γ : Prog) (g : Nat) (cv : Expr) (sts : List Stmt)
    (rest : List (Expr × List Stmt)) (st : St) :
    post_match Γ (g + 1) ((cv, sts) :: rest) st
      = (match eval_stmts Γ g sts st with
         | .ok _ st2 => post_match Γ g rest st2
         | .exn .BreakException st2 => .ok () st2
         | .exn s1 st2 => .exn s1 st2
         | .fuel => .fuel) := rfl

/-- One unfold of `spec_switch` on a case. -/
theorem spec_switch_cons_step (Γ : Prog) (v : Value) (pv : Expr → Value) (g : Nat)
    (cv : Expr) (sts : List Stmt) (rest : List (Expr × List Stmt))
    (dflt : Option (List Stmt)) (st : St) :
    spec_switch Γ v pv (g + 1) ((cv, sts) :: rest) dflt st
      = (if py_eq v (pv cv) then post_match Γ (g + 1) ((cv, sts) :: rest) st
         else spec_switch Γ v pv g rest dflt st) := rfl

-- ===========================
-- Helper lemmas
-- ===========================

/-- The string-concatenation branch of `apply_binop "+"`: whenever either
operand is a string, the result is `py_str l ++ py_str r`. -/
theorem apply_binop_plus_str (l r : Value) (st : St)
    (hs : (is_str l || is_str r) = true) :
    apply_binop "+" l r st = .ok (.VStr (py_str l ++ py_str r)) st := by
  cases l <;> cases r <;> first
    | rfl
    | simp only [is_str, Bool.or_false, Bool.false_or, Bool.or_self,
                 Bool.false_eq_true] at hs

/-- Once a case has matched, `go_switch` runs every remaining statement list
until a `break` (it still evaluates the remaining case values, which for
side-effect-free case values is invisible): it agrees with `post_match`. -/
theorem go_switch_matched (Γ : Prog) (v : Value) (f : Nat)
    (cases : List (Expr × List Stmt)) (dflt : Option (List Stmt)) (st : St)
    (hpure : ∀ p ∈ cases, ∀ g s, ∃ w, eval_expr Γ (g + 1) p.1 s = .ok w s) :
    go_switch Γ v f cases true dflt st = post_match Γ f cases st := by
  induction f generalizing cases st with
  | zero => rfl
  | succ f ih =>
    cases cases with
    | nil => rfl
    | cons p rest =>
      obtain ⟨cv, sts⟩ := p
      cases f with
      | zero => rfl
      | succ g =>
        obtain ⟨w, hcv⟩ := hpure (cv, sts) (List.mem_cons_self _ _) g st
        rw [go_switch_cons_step, hcv]
        simp only [Bool.or_true, if_true, reduceIte, post_match_cons_step]
        cases hst : eval_stmts Γ (g + 1) sts st with
        | ok u st2 =>
          exact ih rest st2 (fun p hp => hpure p (List.mem_cons_of_mem _ hp))
        | exn s2 st2 => cases s2 <;> rfl
        | fuel => rfl

/-- Before any case has matched, `go_switch` on side-effect-free case values
agrees with the specified switch behavior `spec_switch`. -/
theorem go_switch_unmatched (Γ : Prog) (v : Value) (pv : Expr → Value) (f : Nat)
    (cases : List (Expr × List Stmt)) (dflt : Option (List Stmt)) (st : St)
    (hpure : ∀ p ∈ cases, ∀ g s, eval_expr Γ (g + 1) p.1 s = .ok (pv p.1) s) :
    go_switch Γ v f cases false dflt st = spec_switch Γ v pv f cases dflt st := by
  induction f generalizing cases st with
  | zero => rfl
  | succ f ih =>
    cases cases with
    | nil => rfl
    | cons p rest =>
      obtain ⟨cv, sts⟩ := p
      cases f with
      | zero =>
        rw [go_switch_cons_step, spec_switch_cons_step]
        cases hpq : py_eq v (pv cv) <;>
          simp only [if_true, if_false, Bool.false_eq_true, reduceIte] <;> rfl
      | succ g =>
        have hcv := hpure (cv, sts) (List.mem_cons_self _ _) g st
        rw [go_switch_cons_step, hcv, spec_switch_cons_step]
        simp only [Bool.or_false]
        cases hpq : py_eq v (pv cv) with
        | true =>
          simp only [if_true, reduceIte, post_match_cons_step]
          cases hst : eval_stmts Γ (g + 1) sts st with
          | ok u st2 =>
            exact go_switch_matched Γ v (g + 1) rest dflt st2
              (fun p hp g2 s => ⟨pv p.1, hpure p (List.mem_cons_of_mem _ hp) g2 s⟩)
          | exn s2 st2 => cases s2 <;> rfl
          | fuel => rfl
        | false =>
          simp only [Bool.false_eq_true, if_false, reduceIte]
          exact ih rest st (fun p hp => hpure p (List.mem_cons_of_mem _ hp))

-- ===========================
-- Claim theorems
-- ===========================

/-- C1: refuted — a `break` raised in a try block IS caught by a catch
clause.  The catch handler `except Exception` of `eval_stmt (Try)` also
matches the control-transfer exceptions, so the catch body runs (printing
`caught`) and the break is swallowed: the statement completes normally
instead of propagating the break. -/
theorem c1_break_is_caught_by_catch :
    eval_stmt prog_empty 10
      (.Try [.Break]
        [("Exception", "e",
          [.ExprStmt (.MethodCall none "println" [.StringLit "caught"])])]
        none) st_init
      = .ok () ⟨[[]], none, [], ["caught\n"]⟩ := rfl

/-- C2: refuted — when a method body raises a runtime error, the invocation
does not restore the caller's scope: the error propagates with the callee's
frame still pushed (environment stack length 2 instead of 1) and with the
current receiver still switched to the callee's object (`some 0` instead of
`none`), because object dispatch catches only `ReturnException`. -/
theorem c2_error_leaks_frame_and_receiver :
    eval_expr prog_div 10 (.MethodCall (some (.Variable "o")) "m" []) st_recv
      = .exn (.PyError "Division by zero")
          ⟨[[], [("o", .VObj 0)]], some 0, [.JavaObject "A" []], []⟩
    ∧ st_recv.envs.length = 1 ∧ st_recv.current_object = none := ⟨rfl, rfl, rfl⟩

/-- C3 counterexample: `"x" + true` concatenates Python's `str` forms and
yields `"xTrue"`, not the claimed canonical form `"xtrue"` with a lowercase
boolean. -/
theorem c3_counterexample :
    eval_expr prog_empty 2 (.BinOp "+" (.StringLit "x") (.BoolLit true)) st_init
      = .ok (.VStr "xTrue") st_init ∧ "xTrue" ≠ "xtrue" := ⟨rfl, by decide⟩

/-- C3 (amended): for any two runtime values of which at least one is a
string, `a + b` yields the concatenation of their PYTHON string forms
(`py_str`), which renders booleans as `True`/`False` and null as `None` —
not the lowercase `true`/`false`/`null` forms the claim states. -/
theorem c3_string_concat_python_forms (Γ : Prog) (f : Nat) (a b : Expr)
    (st st1 st2 : St) (vl vr : Value)
    (ha : eval_expr Γ f a st = .ok vl st1)
    (hb : eval_expr Γ f b st1 = .ok vr st2)
    (hs : (is_str vl || is_str vr) = true) :
    eval_expr Γ (f + 1) (.BinOp "+" a b) st
      = .ok (.VStr (py_str vl ++ py_str vr)) st2 := by
  simp only [eval_binop_step, ha, hb, String.reduceBEq, reduceIte, Bool.false_eq_true,
             Bool.true_eq_false, eq_self_iff_true, if_true, if_false]
  exact apply_binop_plus_str vl vr st2 hs

/-- Witness for C3's amended theorem: `"x" + null` evaluates to `"xNone"`. -/
theorem c3_string_concat_python_forms_witness :
    eval_expr prog_empty 2 (.BinOp "+" (.StringLit "x") .NullLit) st_init
      = .ok (.VStr "xNone") st_init :=
  c3_string_concat_python_forms prog_empty 1 (.StringLit "x") .NullLit st_init
    st_init st_init (.VStr "x") .VNull rfl rfl rfl

/-- C4 counterexample: calling the 1-argument constructor of class `C` with
zero arguments is not a runtime error — the fresh instance is returned with
no constructor body run; calling the 1-argument method `m` with zero
arguments is not a runtime error either — the call silently evaluates to
null with no state change. -/
theorem c4_counterexample :
    eval_expr prog_arity 10 (.NewObject "C" []) st_arity
      = .ok (.VObj 1)
          ⟨[[("o", .VObj 0)]], none,
           [.JavaObject "C" [], .JavaObject "C" []], []⟩
    ∧ eval_expr prog_arity 10 (.MethodCall (some (.Variable "o")) "m" []) st_arity
      = .ok .VNull st_arity := ⟨rfl, rfl⟩

/-- C4 (amended): an arity-mismatched call is NOT a runtime error.  A
constructor call whose argument count matches no declared constructor
returns the freshly allocated instance without running any constructor
body; a method call whose argument count matches no declaration falls
through and silently evaluates to null. -/
theorem c4_arity_mismatch_is_silent (Γ : Prog) (f : Nat) (c m : String)
    (args : List Expr) (cd : ClassDecl) (flds : List (String × Value))
    (vs : List Value) (md : String × MethodDecl) (st st1 : St) :
    ((Γ.classes.find? (fun d => d.name == c) = some cd) →
      init_fields Γ f cd.fields st = .ok flds st1 →
      find_ctor cd.constructors args.length = none →
      eval_expr Γ (f + 2) (.NewObject c args) st
        = .ok (.VObj st1.heap.length)
            { st1 with heap := st1.heap ++ [.JavaObject c flds] })
    ∧ (eval_exprs Γ (f + 1) args st = .ok vs st1 →
       (m == "println" || m == "print") = false →
       is_math_func m = false →
       Γ.methods.find? (fun p => p.1 == m) = some md →
       (md.2.params.length == vs.length) = false →
       eval_expr Γ (f + 2) (.MethodCall none m args) st = .ok .VNull st1) := by
  constructor
  · intro hc hfld hk
    show eval_expr Γ ((f + 1) + 1) (.NewObject c args) st = _
    simp only [eval_newobject_step, hc, new_object_step, hfld, hk]
  · intro hargs hpr hmath hm hlen
    show eval_expr Γ ((f + 1) + 1) (.MethodCall none m args) st = _
    simp only [eval_methodcall_none_step, hargs, hpr, hmath, is_math_receiver,
               static_dispatch_step, hm, hlen, Bool.false_and, Bool.and_false,
               Bool.false_eq_true, if_false]

/-- Witness for C4's amended theorem: `new C()` against the 1-argument
constructor returns the instance, and the 0-argument call of the 1-argument
static method `sm` returns null. -/
theorem c4_arity_mismatch_is_silent_witness :
    eval_expr prog_static 3 (.NewObject "C" []) st_arity
      = .ok (.VObj 1)
          ⟨[[("o", .VObj 0)]], none,
           [.JavaObject "C" [], .JavaObject "C" []], []⟩
    ∧ eval_expr prog_static 3 (.MethodCall none "sm" []) st_arity
      = .ok .VNull st_arity :=
  ⟨(c4_arity_mismatch_is_silent prog_static 1 "C" "sm" [] class_C [] []
      ("sm", sm_decl) st_arity st_arity).1 rfl rfl rfl,
   (c4_arity_mismatch_is_silent prog_static 1 "C" "sm" [] class_C [] []
      ("sm", sm_decl) st_arity st_arity).2 rfl rfl rfl rfl rfl⟩

/-- C5 counterexample: constructing `new B()` while the current receiver is
an `A` instance whose field `ax` is 7 initializes the field `y` of the new
`B` to 7 — the initializer `y = ax` read the ENCLOSING receiver's field.
Had the initializer run with no receiver set, as the claim states, `ax`
would have been an undefined variable (third conjunct). -/
theorem c5_counterexample :
    st_encl.current_object = some 0
    ∧ eval_expr prog_encl 10 (.NewObject "B" []) st_encl
      = .ok (.VObj 1)
          ⟨[[]], some 0,
           [.JavaObject "A" [("ax", .VInt 7)], .JavaObject "B" [("y", .VInt 7)]],
           []⟩
    ∧ get_var ⟨[[]], none, st_encl.heap, []⟩ "ax"
      = .error (.PyError "Variable ax is not defined") := ⟨rfl, rfl, rfl⟩

/-- C5 (amended): field initializers run BEFORE the receiver is switched to
the new instance, i.e. in the caller's unmodified state: an initializer that
is a bare variable resolves through `get_var` on the caller's state — whose
fallback reads the fields of the caller's current receiver — so initializers
CAN observe the enclosing receiver. -/
theorem c5_initializers_see_caller_receiver (Γ : Prog) (f : Nat) (c : String)
    (args : List Expr) (cd : ClassDecl) (mods : List String)
    (ty fname n : String) (v : Value) (st : St)
    (hc : Γ.classes.find? (fun d => d.name == c) = some cd)
    (hflds : cd.fields = [⟨mods, ty, fname, some (.Variable n)⟩])
    (hk : find_ctor cd.constructors args.length = none)
    (hthis : (n == "this") = false)
    (hget : get_var st n = .ok v) :
    eval_expr Γ (f + 4) (.NewObject c args) st
      = .ok (.VObj st.heap.length)
          { st with heap := st.heap ++ [.JavaObject c [(fname, v)]] } := by
  show eval_expr Γ ((((f + 1) + 1) + 1) + 1) (.NewObject c args) st = _
  simp only [eval_newobject_step, hc, new_object_step, hflds, init_fields_cons_step,
             eval_var_step, hthis, hget, init_fields_nil_step, hk,
             Bool.false_eq_true, if_false]

/-- Witness for C5's amended theorem: the `new B()` construction of the
counterexample, derived from the general theorem. -/
theorem c5_initializers_see_caller_receiver_witness :
    eval_expr prog_encl 4 (.NewObject "B" []) st_encl
      = .ok (.VObj 1)
          ⟨[[]], some 0,
           [.JavaObject "A" [("ax", .VInt 7)], .JavaObject "B" [("y", .VInt 7)]],
           []⟩ :=
  c5_initializers_see_caller_receiver prog_encl 0 "B" [] class_B [] "int" "y" "ax"
    (.VInt 7) st_encl rfl rfl rfl rfl rfl

/-- C6: `&&` and `||` short-circuit.  `false && E` and `true || E` return
the left value without evaluating `E` for every expression `E`; in general,
when the left operand evaluates to `lv`, `&&` returns `lv` if it is falsy
and otherwise returns exactly the evaluation of the right operand (the last
value evaluated), and dually for `||`. -/
theorem c6_short_circuit (Γ : Prog) (f : Nat) (e l r : Expr) (st st1 : St) (lv : Value) :
    (eval_expr Γ (f + 2) (.BinOp "&&" (.BoolLit false) e) st = .ok (.VBool false) st)
    ∧ (eval_expr Γ (f + 2) (.BinOp "||" (.BoolLit true) e) st = .ok (.VBool true) st)
    ∧ (eval_expr Γ (f + 1) l st = .ok lv st1 → truthy st1 lv = true →
       eval_expr Γ (f + 2) (.BinOp "&&" l r) st = eval_expr Γ (f + 1) r st1)
    ∧ (eval_expr Γ (f + 1) l st = .ok lv st1 → truthy st1 lv = false →
       eval_expr Γ (f + 2) (.BinOp "&&" l r) st = .ok lv st1)
    ∧ (eval_expr Γ (f + 1) l st = .ok lv st1 → truthy st1 lv = true →
       eval_expr Γ (f + 2) (.BinOp "||" l r) st = .ok lv st1)
    ∧ (eval_expr Γ (f + 1) l st = .ok lv st1 → truthy st1 lv = false →
       eval_expr Γ (f + 2) (.BinOp "||" l r) st = eval_expr Γ (f + 1) r st1) := by
  refine ⟨?_, ?_, ?_, ?_, ?_, ?_⟩
  · show eval_expr Γ ((f + 1) + 1) (.BinOp "&&" (.BoolLit false) e) st = _
    simp only [eval_binop_step, eval_boollit_step, truthy, String.reduceBEq,
               Bool.false_eq_true, Bool.true_eq_false, eq_self_iff_true,
               if_true, if_false, reduceIte]
  · show eval_expr Γ ((f + 1) + 1) (.BinOp "||" (.BoolLit true) e) st = _
    simp only [eval_binop_step, eval_boollit_step, truthy, String.reduceBEq,
               Bool.false_eq_true, Bool.true_eq_false, eq_self_iff_true,
               if_true, if_false, reduceIte]
  · intro ha ht
    show eval_expr Γ ((f + 1) + 1) (.BinOp "&&" l r) st = _
    simp only [eval_binop_step, ha, ht, String.reduceBEq, Bool.false_eq_true,
               Bool.true_eq_false, eq_self_iff_true, if_true, if_false, reduceIte]
  · intro ha ht
    show eval_expr Γ ((f + 1) + 1) (.BinOp "&&" l r) st = _
    simp only [eval_binop_step, ha, ht, String.reduceBEq, Bool.false_eq_true,
               Bool.true_eq_false, eq_self_iff_true, if_true, if_false, reduceIte]
  · intro ha ht
    show eval_expr Γ ((f + 1) + 1) (.BinOp "||" l r) st = _
    simp only [eval_binop_step, ha, ht, String.reduceBEq, Bool.false_eq_true,
               Bool.true_eq_false, eq_self_iff_true, if_true, if_false, reduceIte]
  · intro ha ht
    show eval_expr Γ ((f + 1) + 1) (.BinOp "||" l r) st = _
    simp only [eval_binop_step, ha, ht, String.reduceBEq, Bool.false_eq_true,
               Bool.true_eq_false, eq_self_iff_true, if_true, if_false, reduceIte]

/-- Witness for C6 at a concrete input: with `E` a `println` call, neither
`false && E` nor `true || E` produces any output (the state, including the
output list, is unchanged). -/
theorem c6_short_circuit_witness :
    eval_expr prog_empty 2
        (.BinOp "&&" (.BoolLit false)
          (.MethodCall none "println" [.StringLit "side"])) st_init
      = .ok (.VBool false) st_init
    ∧ eval_expr prog_empty 2
        (.BinOp "||" (.BoolLit true)
          (.MethodCall none "println" [.StringLit "side"])) st_init
      = .ok (.VBool true) st_init :=
  ⟨(c6_short_circuit prog_empty 0 (.MethodCall none "println" [.StringLit "side"])
      (.BoolLit false) (.BoolLit false) st_init st_init (.VBool false)).1,
   (c6_short_circuit prog_empty 0 (.MethodCall none "println" [.StringLit "side"])
      (.BoolLit false) (.BoolLit false) st_init st_init (.VBool false)).2.1⟩

set_option maxHeartbeats 1000000 in
/-- Precedence check row: `x || y OP2 z` groups correctly for every OP2. -/
theorem c7row0 : (binop_toks.all fun p2 => check_pair (.OR, "||") p2) = true := by
  decide

set_option maxHeartbeats 1000000 in
/-- Precedence check row: `x && y OP2 z` groups correctly for every OP2. -/
theorem c7row1 : (binop_toks.all fun p2 => check_pair (.AND, "&&") p2) = true := by
  decide

set_option maxHeartbeats 1000000 in
/-- Precedence check row: `x == y OP2 z` groups correctly for every OP2. -/
theorem c7row2 : (binop_toks.all fun p2 => check_pair (.EQ, "==") p2) = true := by
  decide

set_option maxHeartbeats 1000000 in
/-- Precedence check row: `x != y OP2 z` groups correctly for every OP2. -/
theorem c7row3 : (binop_toks.all fun p2 => check_pair (.NE, "!=") p2) = true := by
  decide

set_option maxHeartbeats 1000000 in
/-- Precedence check row: `x < y OP2 z` groups correctly for every OP2. -/
theorem c7row4 : (binop_toks.all fun p2 => check_pair (.LT, "<") p2) = true := by
  decide

set_option maxHeartbeats 1000000 in
/-- Precedence check row: `x <= y OP2 z` groups correctly for every OP2. -/
theorem c7row5 : (binop_toks.all fun p2 => check_pair (.LE, "<=") p2) = true := by
  decide

set_option maxHeartbeats 1000000 in
/-- Precedence check row: `x > y OP2 z` groups correctly for every OP2. -/
theorem c7row6 : (binop_toks.all fun p2 => check_pair (.GT, ">") p2) = true := by
  decide

set_option maxHeartbeats 1000000 in
/-- Precedence check row: `x >= y OP2 z` groups correctly for every OP2. -/
theorem c7row7 : (binop_toks.all fun p2 => check_pair (.GE, ">=") p2) = true := by
  decide

set_option maxHeartbeats 1000000 in
/-- Precedence check row: `x + y OP2 z` groups correctly for every OP2. -/
theorem c7row8 : (binop_toks.all fun p2 => check_pair (.PLUS, "+") p2) = true := by
  decide

set_option maxHeartbeats 1000000 in
/-- Precedence check row: `x - y OP2 z` groups correctly for every OP2. -/
theorem c7row9 : (binop_toks.all fun p2 => check_pair (.MINUS, "-") p2) = true := by
  decide

set_option maxHeartbeats 1000000 in
/-- Precedence check row: `x * y OP2 z` groups correctly for every OP2. -/
theorem c7row10 : (binop_toks.all fun p2 => check_pair (.STAR, "*") p2) = true := by
  decide

set_option maxHeartbeats 1000000 in
/-- Precedence check row: `x / y OP2 z` groups correctly for every OP2. -/
theorem c7row11 : (binop_toks.all fun p2 => check_pair (.SLASH, "/") p2) = true := by
  decide

set_option maxHeartbeats 1000000 in
/-- Precedence check row: `x % y OP2 z` groups correctly for every OP2. -/
theorem c7row12 : (binop_toks.all fun p2 => check_pair (.PERCENT, "%") p2) = true := by
  decide

set_option maxHeartbeats 1000000 in
/-- C7: the parser realizes the precedence table.  For every pair of binary
operators, `x OP1 y OP2 z` groups by precedence (tighter first, equal
levels to the left), two relational operators do not combine (the parse of
`x < y < z` stops after `x < y` with the second `<` unconsumed), the
ternary is right-associative and binds loosest, and prefix/postfix unary
operators bind tighter than any binary operator. -/
theorem c7_precedence_table :
    ((binop_toks.all fun p1 => binop_toks.all fun p2 => check_pair p1 p2) = true)
    ∧ rel_chain_check = true ∧ ternary_right_assoc_check = true
    ∧ ternary_lowest_check = true ∧ unary_tighter_check = true
    ∧ postfix_tighter_check = true := by
  refine ⟨?_, by decide, by decide, by decide, by decide, by decide⟩
  rw [List.all_eq_true]
  intro p hp
  simp only [binop_toks, List.mem_cons, List.not_mem_nil, or_false] at hp
  rcases hp with rfl | rfl | rfl | rfl | rfl | rfl | rfl | rfl | rfl | rfl | rfl | rfl | rfl
  · exact c7row0
  · exact c7row1
  · exact c7row2
  · exact c7row3
  · exact c7row4
  · exact c7row5
  · exact c7row6
  · exact c7row7
  · exact c7row8
  · exact c7row9
  · exact c7row10
  · exact c7row11
  · exact c7row12

/-- C8: a `switch` statement evaluates the scrutinee exactly once (to `v`,
in state `st1`, in which everything that follows runs) and then behaves as
the specified switch `spec_switch`: case values are tested in order against
`v`, after the first match all subsequent statement lists run (fall-through)
until a `break` or the end, and the default runs iff no case matched.
Stated for side-effect-free case values (`hpure`), which the specified
behavior needs in order to be expressible as a pure test. -/
theorem c8_switch_semantics (Γ : Prog) (f : Nat) (e1 : Expr)
    (cases : List (Expr × List Stmt)) (dflt : Option (List Stmt))
    (st st1 : St) (v : Value) (pv : Expr → Value)
    (hscrut : eval_expr Γ f e1 st = .ok v st1)
    (hpure : ∀ p ∈ cases, ∀ g s, eval_expr Γ (g + 1) p.1 s = .ok (pv p.1) s) :
    eval_stmt Γ (f + 1) (.Switch e1 cases dflt) st
      = spec_switch Γ v pv f cases dflt st1 := by
  rw [eval_switch_step, hscrut]
  exact go_switch_unmatched Γ v pv f cases dflt st1 hpure

/-- Witness for C8: a four-case switch on the literal 2 with a `break` in
the third case agrees with the specified behavior. -/
theorem c8_switch_semantics_witness :
    eval_stmt prog_empty 10 (.Switch (.IntLit 2) wit_cases (some wit_default)) st_init
      = spec_switch prog_empty (.VInt 2) wit_pv 9 wit_cases (some wit_default) st_init := by
  refine c8_switch_semantics prog_empty 9 (.IntLit 2) wit_cases (some wit_default)
    st_init st_init (.VInt 2) wit_pv rfl ?_
  intro p hp g s
  simp only [wit_cases, List.mem_cons, List.not_mem_nil, or_false] at hp
  rcases hp with rfl | rfl | rfl | rfl <;> rfl

/-- C9: evaluating `new C(args)` for a class name registered in no class
declaration yields null, raises no error and leaves the state unchanged
(the argument expressions are not even evaluated). -/
theorem c9_unknown_class_yields_null (Γ : Prog) (f : Nat) (c : String)
    (args : List Expr) (st : St)
    (h : Γ.classes.find? (fun d => d.name == c) = none) :
    eval_expr Γ (f + 1) (.NewObject c args) st = .ok .VNull st := by
  simp only [eval_newobject_step, h]

/-- Witness for C9: `new Nope(1)` in the empty program yields null with the
state unchanged. -/
theorem c9_unknown_class_yields_null_witness :
    eval_expr prog_empty 1 (.NewObject "Nope" [.IntLit 1]) st_init
      = .ok .VNull st_init :=
  c9_unknown_class_yields_null prog_empty 0 "Nope" [.IntLit 1] st_init rfl

/-- C10: a try statement with zero catch clauses swallows a runtime error
raised by its try block: the finally block runs (its state changes are
kept), the statement completes normally, and execution continues with the
following statements from the finally block's final state. -/
theorem c10_zero_catch_swallows_error (Γ : Prog) (f : Nat) (tb fs rest : List Stmt)
    (st st1 st2 : St) (sig : Signal) (u : Unit)
    (hb : eval_stmts Γ (f + 1) tb st = .exn sig st1)
    (hfs : eval_stmts Γ f fs st1 = .ok u st2) :
    (eval_stmt Γ (f + 2) (.Try tb [] (some fs)) st = .ok () st2)
    ∧ (eval_stmts Γ (f + 3) (.Try tb [] (some fs) :: rest) st
        = eval_stmts Γ (f + 2) rest st2) := by
  have h1 : eval_stmt Γ (f + 2) (.Try tb [] (some fs)) st = .ok () st2 := by
    show eval_stmt Γ ((f + 1) + 1) (.Try tb [] (some fs)) st = _
    simp only [eval_try_step, hb, run_finally_some_step, hfs]
  refine ⟨h1, ?_⟩
  show eval_stmts Γ ((f + 2) + 1) (.Try tb [] (some fs) :: rest) st = _
  simp only [eval_stmts_cons_step, h1]

/-- Witness for C10: a try/finally whose try block divides by zero completes
normally with the finally block's output `fin` and no propagating error. -/
theorem c10_zero_catch_swallows_error_witness :
    (eval_stmt prog_empty 7
        (.Try [.ExprStmt (.BinOp "/" (.IntLit 1) (.IntLit 0))] []
          (some [.ExprStmt (.MethodCall none "print" [.StringLit "fin"])])) st_init
      = .ok () ⟨[[]], none, [], ["fin"]⟩)
    ∧ (eval_stmts prog_empty 8
        [.Try [.ExprStmt (.BinOp "/" (.IntLit 1) (.IntLit 0))] []
          (some [.ExprStmt (.MethodCall none "print" [.StringLit "fin"])])] st_init
      = eval_stmts prog_empty 7 [] ⟨[[]], none, [], ["fin"]⟩) :=
  c10_zero_catch_swallows_error prog_empty 5
    [.ExprStmt (.BinOp "/" (.IntLit 1) (.IntLit 0))]
    [.ExprStmt (.MethodCall none "print" [.StringLit "fin"])] [] st_init st_init
    ⟨[[]], none, [], ["fin"]⟩ (.PyError "Division by zero") () rfl rfl

end Jv
